import Mathlib

/-!
Verification development for the proxy ingestion-and-validation pipeline
(src/parser/parser.py, src/models/proxy_model.py, src/validator/validator.py,
src/main.py, src/config.py).

The Python code is shallowly embedded:
* Python heterogeneous values (JSON/YAML documents, parser dictionaries) are
  modelled by the inductive type `PyVal`; a Python dict is an association
  list `PyDict` preserving insertion order (keys are modelled as strings).
* Each per-scheme descriptor decoder of `ProxyParser` is a total Lean
  function returning `Option PyDict`: `Option.none` models the branch where
  the Python body raised and the surrounding broad `except` handler returned
  `None`.
* `yaml.safe_load` and `json.loads` are third-party/stdlib loaders whose
  text-level behaviour is not re-implemented; they are passed in as an
  explicit parameter (`PyExt`).  All per-scheme logic downstream of loading is
  translated from the source.
* `base64` decoding follows the lenient CPython `binascii.a2b_base64`
  behaviour (non-alphabet characters are discarded, decoding stops at the
  first padded quantum, missing final padding is an error).
* Text is UTF-8; `bytes.decode("utf-8")` is modelled by a strict UTF-8
  decoder, `urllib.parse.unquote` by percent-decoding with U+FFFD
  replacement.  `str.lower` is modelled by the ASCII `Char.toLower` (all
  identity-key material in the claims is ASCII).
* Latency values (Python floats holding millisecond measurements) are
  modelled as rationals; no claim depends on float rounding.
-/

/-- Python-like heterogeneous value: the result of loading JSON or YAML and
the element type of the dictionaries the parser builds. -/
inductive PyVal where
  | none : PyVal
  | bool : Bool → PyVal
  | int : Int → PyVal
  | str : String → PyVal
  | list : List PyVal → PyVal
  | dict : List (String × PyVal) → PyVal

/-- Python dict with string keys, as an insertion-ordered association list. -/
abbrev PyDict := List (String × PyVal)

/-- Dictionary lookup, `d.get(k)` returning `None` as `Option.none`. -/
def pyGet (d : PyDict) (k : String) : Option PyVal :=
  match d with
  | [] => Option.none
  | (k2, v) :: rest => if k2 = k then some v else pyGet rest k

/-- Dictionary lookup with default, `d.get(k, dflt)`. -/
def pyGetD (d : PyDict) (k : String) (dflt : PyVal) : PyVal :=
  (pyGet d k).getD dflt

/-- Membership test, `k in d`. -/
def pyHasKey (d : PyDict) (k : String) : Bool :=
  (pyGet d k).isSome

/-- Assignment `d[k] = v`: updates the value in place if the key exists
(keeping its position, as CPython dicts do), otherwise appends. -/
def pyDictSet (d : PyDict) (k : String) (v : PyVal) : PyDict :=
  match d with
  | [] => [(k, v)]
  | (k2, w) :: rest =>
      if k2 = k then (k2, v) :: rest else (k2, w) :: pyDictSet rest k v

/-- Removal `d.pop(k, ...)`: the popped value (if any) and the remaining dict. -/
def pyDictPop (d : PyDict) (k : String) : Option PyVal × PyDict :=
  match d with
  | [] => (Option.none, [])
  | (k2, v) :: rest =>
      if k2 = k then (some v, rest)
      else
        let (r, rest2) := pyDictPop rest k
        (r, (k2, v) :: rest2)

/-- Bulk assignment `d.update(other)`. -/
def pyDictUpdate (d other : PyDict) : PyDict :=
  match other with
  | [] => d
  | (k, v) :: rest => pyDictUpdate (pyDictSet d k v) rest

/-- Python truthiness of a value. -/
def pyTruthy : PyVal → Bool
  | .none => false
  | .bool b => b
  | .int n => n ≠ 0
  | .str s => s ≠ ""
  | .list xs => !xs.isEmpty
  | .dict kvs => !kvs.isEmpty

mutual
/-- Python `str()` display of a value, used where the source interpolates a
value into an f-string.  Containers get a simple bracketed rendering. -/
def pyDisplay : PyVal → String
  | .none => "None"
  | .bool b => if b then "True" else "False"
  | .int n => toString n
  | .str s => s
  | .list xs => "[" ++ pyDisplayList xs ++ "]"
  | .dict kvs => "\x7b" ++ pyDisplayDict kvs ++ "\x7d"

def pyDisplayList : List PyVal → String
  | [] => ""
  | [x] => pyDisplay x
  | x :: rest => pyDisplay x ++ ", " ++ pyDisplayList rest

def pyDisplayDict : List (String × PyVal) → String
  | [] => ""
  | [(k, v)] => k ++ ": " ++ pyDisplay v
  | (k, v) :: rest => k ++ ": " ++ pyDisplay v ++ ", " ++ pyDisplayDict rest
end

/-- Digit test for base-10 parsing. -/
def isDigitChar (c : Char) : Bool :=
  decide ('0' ≤ c) && decide (c ≤ '9')

/-- Numeric value of a decimal digit list (most significant first). -/
def digitsToNat (cs : List Char) : Nat :=
  cs.foldl (fun acc c => acc * 10 + (c.toNat - 48)) 0

/-- Python `int(s)` on a string: strips surrounding whitespace, accepts an
optional sign followed by one or more decimal digits, raises otherwise
(modelled as `Option.none`).  Underscore digit grouping is not modelled. -/
def pyIntOfChars (cs : List Char) : Option Int :=
  let cs := (cs.dropWhile Char.isWhitespace).reverse.dropWhile Char.isWhitespace |>.reverse
  match cs with
  | [] => Option.none
  | '-' :: rest =>
      if rest ≠ [] ∧ rest.all isDigitChar then some (-(digitsToNat rest : Int)) else Option.none
  | '+' :: rest =>
      if rest ≠ [] ∧ rest.all isDigitChar then some (digitsToNat rest : Int) else Option.none
  | _ =>
      if cs.all isDigitChar then some (digitsToNat cs : Int) else Option.none

/-- Python `int(s)` on a `String`. -/
def pyIntOfString (s : String) : Option Int :=
  pyIntOfChars s.data

/-- Python `int(v)` on a loaded value: ints pass through, booleans coerce,
strings are parsed; anything else (including `None`) raises. -/
def pyToInt : PyVal → Option Int
  | .int n => some n
  | .bool b => some (if b then 1 else 0)
  | .str s => pyIntOfString s
  | _ => Option.none

/-! ### Character-list text helpers

Python string operations used by the parser, written as structural
recursions on `List Char` so that closed evaluations reduce in the kernel.
-/

/-- Python `s.strip()`: remove leading and trailing whitespace. -/
def stripChars (cs : List Char) : List Char :=
  ((cs.dropWhile Char.isWhitespace).reverse.dropWhile Char.isWhitespace).reverse

/-- Python `s.split(sep)` for a one-character separator (full split,
empty segments preserved). -/
def splitAllOn (sep : Char) : List Char → List (List Char)
  | [] => [[]]
  | c :: rest =>
      let r := splitAllOn sep rest
      if c = sep then [] :: r
      else
        match r with
        | [] => [[c]]
        | seg :: segs => (c :: seg) :: segs

/-- Python `s.split(sep, 1)` viewed as a partition: `some (a, b)` when the
separator occurs (first occurrence), `none` when it does not. -/
def splitFirstOn (sep : Char) : List Char → Option (List Char × List Char)
  | [] => Option.none
  | c :: rest =>
      if c = sep then some ([], rest)
      else
        match splitFirstOn sep rest with
        | some (a, b) => some (c :: a, b)
        | Option.none => Option.none

/-- Python `s.rpartition(sep)` viewed as a partition at the last occurrence:
`some (a, b)` when the separator occurs, `none` when it does not. -/
def splitLastOn (sep : Char) (cs : List Char) : Option (List Char × List Char) :=
  match splitFirstOn sep cs.reverse with
  | some (a, b) => some (b.reverse, a.reverse)
  | Option.none => Option.none

/-- List prefix test (Python `s.startswith(p)`). -/
def listStartsWith [DecidableEq α] : List α → List α → Bool
  | [], _ => true
  | _ :: _, [] => false
  | p :: ps, c :: cs => p = c && listStartsWith ps cs

/-- Substring test (Python `needle in hay`). -/
def listContainsSub [DecidableEq α] (needle : List α) : List α → Bool
  | [] => listStartsWith needle []
  | c :: cs => listStartsWith needle (c :: cs) || listContainsSub needle cs

/-- Split a list at the first element satisfying `stop`: returns the part
before it and the remainder starting with the stop element (or the whole
list and `[]`). -/
def takeUntilStop (stop : Char → Bool) : List Char → List Char × List Char
  | [] => ([], [])
  | c :: rest =>
      if stop c then ([], c :: rest)
      else
        let (a, b) := takeUntilStop stop rest
        (c :: a, b)

/-! ### Base64 (lenient CPython behaviour) -/

/-- Value of a standard-alphabet base64 character. -/
def b64Val (c : Char) : Option Nat :=
  if decide ('A' ≤ c) && decide (c ≤ 'Z') then some (c.toNat - 65)
  else if decide ('a' ≤ c) && decide (c ≤ 'z') then some (c.toNat - 97 + 26)
  else if isDigitChar c then some (c.toNat - 48 + 52)
  else if c = '+' then some 62
  else if c = '/' then some 63
  else Option.none

/-- Character-by-character decoding loop of `binascii.a2b_base64` in
non-strict mode (the CPython C loop): non-alphabet characters are skipped;
a pad character only counts once two data characters of the current quantum
have been seen, and a quantum completed by padding ends the decode
(later characters are ignored); a data character resets the pad count; at
the end of input a partially filled quantum is an `Incorrect padding`
error.  `qp` is the quad position (0-3), `acc` the pending bits, `pads`
the current pad count. -/
def b64Core : List Char → Nat → Nat → Nat → Option (List Nat)
  | [], qp, _, _ => if qp = 0 then some [] else Option.none
  | c :: rest, qp, acc, pads =>
      if c = '=' then
        if 2 ≤ qp then
          if 4 ≤ qp + (pads + 1) then some []
          else b64Core rest qp acc (pads + 1)
        else b64Core rest qp acc pads
      else
        match b64Val c with
        | Option.none => b64Core rest qp acc pads
        | some v =>
            match qp with
            | 0 => b64Core rest 1 v 0
            | 1 =>
                match b64Core rest 2 ((acc * 64 + v) % 16) 0 with
                | some bytes => some ((acc * 64 + v) / 16 :: bytes)
                | Option.none => Option.none
            | 2 =>
                match b64Core rest 3 ((acc * 64 + v) % 4) 0 with
                | some bytes => some ((acc * 64 + v) / 4 :: bytes)
                | Option.none => Option.none
            | _ =>
                match b64Core rest 0 0 0 with
                | some bytes => some ((acc * 64 + v) :: bytes)
                | Option.none => Option.none

/-- Lenient `base64.b64decode` (standard alphabet). -/
def b64DecodeStd (cs : List Char) : Option (List Nat) :=
  b64Core cs 0 0 0

/-- The character translation performed by `base64.urlsafe_b64decode`
(and by the explicit `.replace` calls in `_parse_ss`). -/
def b64UrlsafeTranslate (cs : List Char) : List Char :=
  cs.map (fun c => if c = '-' then '+' else if c = '_' then '/' else c)

/-- Lenient `base64.urlsafe_b64decode`. -/
def b64DecodeUrlsafe (cs : List Char) : Option (List Nat) :=
  b64DecodeStd (b64UrlsafeTranslate cs)

/-- Standard base64 alphabet character of a 6-bit value. -/
def b64CharOfVal (n : Nat) : Char :=
  if n < 26 then Char.ofNat (65 + n)
  else if n < 52 then Char.ofNat (97 + (n - 26))
  else if n < 62 then Char.ofNat (48 + (n - 52))
  else if n = 62 then '+'
  else '/'

/-- Standard `base64.b64encode` of a byte list (with padding). -/
def b64Encode : List Nat → List Char
  | [] => []
  | [x] =>
      [b64CharOfVal (x / 4), b64CharOfVal ((x % 4) * 16), '=', '=']
  | [x, y] =>
      [b64CharOfVal (x / 4), b64CharOfVal ((x % 4) * 16 + y / 16),
       b64CharOfVal ((y % 16) * 4), '=']
  | x :: y :: z :: rest =>
      [b64CharOfVal (x / 4), b64CharOfVal ((x % 4) * 16 + y / 16),
       b64CharOfVal ((y % 16) * 4 + z / 64), b64CharOfVal (z % 64)] ++ b64Encode rest

/-- `base64.urlsafe_b64encode`. -/
def b64EncodeUrlsafe (bytes : List Nat) : List Char :=
  (b64Encode bytes).map (fun c => if c = '+' then '-' else if c = '/' then '_' else c)

/-- Python `s.rstrip(ch)` for a single strip character. -/
def rstripChar (ch : Char) (cs : List Char) : List Char :=
  (cs.reverse.dropWhile (fun c => c = ch)).reverse

/-! ### UTF-8 -/

/-- UTF-8 encoding of one scalar value. -/
def utf8EncodeChar (c : Char) : List Nat :=
  let n := c.toNat
  if n < 0x80 then [n]
  else if n < 0x800 then [0xC0 + n / 64, 0x80 + n % 64]
  else if n < 0x10000 then [0xE0 + n / 4096, 0x80 + n / 64 % 64, 0x80 + n % 64]
  else [0xF0 + n / 262144, 0x80 + n / 4096 % 64, 0x80 + n / 64 % 64, 0x80 + n % 64]

/-- Python `s.encode("utf-8")`. -/
def utf8Encode (cs : List Char) : List Nat :=
  cs.flatMap utf8EncodeChar

/-- Continuation-byte test. -/
def isCont (b : Nat) : Bool :=
  decide (0x80 ≤ b) && decide (b < 0xC0)

/-- Strict UTF-8 decoding, Python `bytes.decode("utf-8")`: rejects stray
continuation bytes, truncated sequences, overlong encodings, surrogates and
out-of-range scalars (modelled as `Option.none`, which the callers
surrounding `except` handlers turn into a skipped unit). -/
def utf8DecodeStrict : List Nat → Option (List Char)
  | [] => some []
  | b :: rest =>
      if b < 0x80 then
        match utf8DecodeStrict rest with
        | some cs => some (Char.ofNat b :: cs)
        | Option.none => Option.none
      else if b < 0xC2 then Option.none
      else if b < 0xE0 then
        match rest with
        | b2 :: rest2 =>
            if isCont b2 then
              match utf8DecodeStrict rest2 with
              | some cs => some (Char.ofNat ((b - 0xC0) * 64 + (b2 - 0x80)) :: cs)
              | Option.none => Option.none
            else Option.none
        | [] => Option.none
      else if b < 0xF0 then
        match rest with
        | b2 :: b3 :: rest2 =>
            if isCont b2 && isCont b3 then
              let n := (b - 0xE0) * 4096 + (b2 - 0x80) * 64 + (b3 - 0x80)
              if decide (0x800 ≤ n) && !(decide (0xD800 ≤ n) && decide (n ≤ 0xDFFF)) then
                match utf8DecodeStrict rest2 with
                | some cs => some (Char.ofNat n :: cs)
                | Option.none => Option.none
              else Option.none
            else Option.none
        | _ => Option.none
      else if b < 0xF5 then
        match rest with
        | b2 :: b3 :: b4 :: rest2 =>
            if isCont b2 && isCont b3 && isCont b4 then
              let n := (b - 0xF0) * 262144 + (b2 - 0x80) * 4096 + (b3 - 0x80) * 64 + (b4 - 0x80)
              if decide (0x10000 ≤ n) && decide (n ≤ 0x10FFFF) then
                match utf8DecodeStrict rest2 with
                | some cs => some (Char.ofNat n :: cs)
                | Option.none => Option.none
              else Option.none
            else Option.none
        | _ => Option.none
      else Option.none

/-- UTF-8 decoding with U+FFFD replacement (Python `errors="replace"`,
used inside `urllib.parse.unquote`): an invalid lead/continuation consumes
one byte and emits the replacement character.  The fuel argument only makes
the recursion structural; every step consumes at least one byte, so fuel
equal to the byte count (as supplied by `utf8DecodeRepl`) is exact. -/
def utf8DecodeReplFuel : Nat → List Nat → List Char
  | 0, _ => []
  | _, [] => []
  | fuel + 1, b :: rest =>
      if b < 0x80 then Char.ofNat b :: utf8DecodeReplFuel fuel rest
      else if b < 0xC2 then Char.ofNat 0xFFFD :: utf8DecodeReplFuel fuel rest
      else if b < 0xE0 then
        match rest with
        | b2 :: rest2 =>
            if isCont b2 then Char.ofNat ((b - 0xC0) * 64 + (b2 - 0x80)) :: utf8DecodeReplFuel fuel rest2
            else Char.ofNat 0xFFFD :: utf8DecodeReplFuel fuel rest
        | [] => [Char.ofNat 0xFFFD]
      else if b < 0xF0 then
        match rest with
        | b2 :: b3 :: rest2 =>
            if isCont b2 && isCont b3 then
              let n := (b - 0xE0) * 4096 + (b2 - 0x80) * 64 + (b3 - 0x80)
              if decide (0x800 ≤ n) && !(decide (0xD800 ≤ n) && decide (n ≤ 0xDFFF)) then
                Char.ofNat n :: utf8DecodeReplFuel fuel rest2
              else Char.ofNat 0xFFFD :: utf8DecodeReplFuel fuel rest
            else Char.ofNat 0xFFFD :: utf8DecodeReplFuel fuel rest
        | _ => Char.ofNat 0xFFFD :: utf8DecodeReplFuel fuel rest
      else if b < 0xF5 then
        match rest with
        | b2 :: b3 :: b4 :: rest2 =>
            if isCont b2 && isCont b3 && isCont b4 then
              let n := (b - 0xF0) * 262144 + (b2 - 0x80) * 4096 + (b3 - 0x80) * 64 + (b4 - 0x80)
              if decide (0x10000 ≤ n) && decide (n ≤ 0x10FFFF) then
                Char.ofNat n :: utf8DecodeReplFuel fuel rest2
              else Char.ofNat 0xFFFD :: utf8DecodeReplFuel fuel rest
            else Char.ofNat 0xFFFD :: utf8DecodeReplFuel fuel rest
        | _ => Char.ofNat 0xFFFD :: utf8DecodeReplFuel fuel rest
      else Char.ofNat 0xFFFD :: utf8DecodeReplFuel fuel rest

/-- UTF-8 decoding with replacement. -/
def utf8DecodeRepl (bytes : List Nat) : List Char :=
  utf8DecodeReplFuel bytes.length bytes

/-- Hexadecimal digit value. -/
def hexVal (c : Char) : Option Nat :=
  if isDigitChar c then some (c.toNat - 48)
  else if decide ('a' ≤ c) && decide (c ≤ 'f') then some (c.toNat - 97 + 10)
  else if decide ('A' ≤ c) && decide (c ≤ 'F') then some (c.toNat - 65 + 10)
  else Option.none

/-- Percent-decoding worker for `urllib.parse.unquote`: consecutive
percent-escapes accumulate into a byte run which is UTF-8 decoded with
replacement; a percent sign not followed by two hexadecimal digits is kept
literally. -/
def pctDecodeAux : List Char → List Nat → List Char
  | [], acc => utf8DecodeRepl acc
  | '%' :: a :: b :: rest, acc =>
      match hexVal a, hexVal b with
      | some ha, some hb => pctDecodeAux rest (acc ++ [ha * 16 + hb])
      | _, _ => utf8DecodeRepl acc ++ '%' :: pctDecodeAux (a :: b :: rest) []
  | c :: rest, acc => utf8DecodeRepl acc ++ c :: pctDecodeAux rest []

/-- Python `urllib.parse.unquote` on character lists. -/
def unquoteChars (cs : List Char) : List Char :=
  pctDecodeAux cs []

/-! ### A light model of `urllib.parse.urlparse`

Only the accessors the source uses (`scheme`, `netloc`, `fragment`,
`query`, `username`, `hostname`, `port`), following the CPython
`urlsplit`/`_hostinfo` logic.
-/

/-- Characters allowed in a URL scheme after the leading letter. -/
def isSchemeChar (c : Char) : Bool :=
  c.isAlpha || isDigitChar c || c = '+' || c = '-' || c = '.'

/-- Split off `scheme:` (lowercased) when present and well formed. -/
def urlSchemeSplit (cs : List Char) : List Char × List Char :=
  match splitFirstOn ':' cs with
  | some (a, b) =>
      match a with
      | [] => ([], cs)
      | c0 :: restA =>
          if c0.isAlpha && restA.all isSchemeChar then (a.map Char.toLower, b)
          else ([], cs)
  | Option.none => ([], cs)

/-- CPython `urlsplit` reduced to (scheme, netloc, query, fragment). -/
def urlsplitL (cs : List Char) : List Char × List Char × List Char × List Char :=
  let (scheme, rest) := urlSchemeSplit cs
  let (netloc, rest2) :=
    if listStartsWith ['/', '/'] rest then
      takeUntilStop (fun c => c = '/' || c = '?' || c = '#') (rest.drop 2)
    else ([], rest)
  let (beforeFrag, fragment) :=
    match splitFirstOn '#' rest2 with
    | some (a, b) => (a, b)
    | Option.none => (rest2, [])
  let query :=
    match splitFirstOn '?' beforeFrag with
    | some (_, q) => q
    | Option.none => []
  (scheme, netloc, query, fragment)

/-- CPython `_hostinfo`: the host/port part of the netloc (after the last
`@`), split into host text and optional port text. -/
def urlHostInfo (netloc : List Char) : List Char × List Char :=
  let hostinfo :=
    match splitLastOn '@' netloc with
    | some (_, h) => h
    | Option.none => netloc
  match hostinfo with
  | '[' :: rest =>
      let (bracketed, after) := takeUntilStop (fun c => c = ']') rest
      let port :=
        match after with
        | ']' :: ':' :: p => p
        | _ => []
      (bracketed, port)
  | _ =>
      match splitFirstOn ':' hostinfo with
      | some (h, p) => (h, p)
      | Option.none => (hostinfo, [])

/-- CPython `parsed.hostname`: lowercased host, `None` when empty. -/
def urlHostname (netloc : List Char) : Option (List Char) :=
  let h := (urlHostInfo netloc).1
  if h = [] then Option.none else some (h.map Char.toLower)

/-- CPython `parsed.port`: `Except` error models the `ValueError` raised on
a non-numeric or out-of-range (not 0..65535) port. -/
def urlPort (netloc : List Char) : Except Unit (Option Int) :=
  let p := (urlHostInfo netloc).2
  if p = [] then .ok Option.none
  else
    match pyIntOfChars p with
    | some n => if 0 ≤ n ∧ n ≤ 65535 then .ok (some n) else .error ()
    | Option.none => .error ()

/-- CPython `parsed.username`: the userinfo (before the last `@`) up to the
first `:`; `None` when the netloc has no `@`. -/
def urlUsername (netloc : List Char) : Option (List Char) :=
  match splitLastOn '@' netloc with
  | some (u, _) => some (takeUntilStop (fun c => c = ':') u).1
  | Option.none => Option.none

/-! ### Per-scheme descriptor decoders (ProxyParser of src/parser/parser.py)

Each `Option PyDict` result is the dictionary the Python method returns;
`Option.none` covers every path on which the body raised and the broad
`except Exception` handler returned `None`.
-/

/-- External loaders: `yaml.safe_load` and `json.loads` are stdlib /
third-party text loaders; their per-document behaviour is a parameter
(`Option.none` = the loader raised), everything downstream is translated
from the source. -/
structure PyExt where
  safeLoad : String → Option PyVal
  jsonLoads : String → Option PyVal

/-- String-valued query dictionary: assignment with CPython overwrite
semantics (used where the source builds dicts of query parameters). -/
def strDictSet (d : List (String × String)) (k v : String) : List (String × String) :=
  match d with
  | [] => [(k, v)]
  | (k2, w) :: rest =>
      if k2 = k then (k2, v) :: rest else (k2, w) :: strDictSet rest k v

/-- Lookup in a query dictionary. -/
def strDictGet (d : List (String × String)) (k : String) : Option String :=
  match d with
  | [] => Option.none
  | (k2, v) :: rest => if k2 = k then some v else strDictGet rest k

/-- Lookup with default. -/
def strDictGetD (d : List (String × String)) (k dflt : String) : String :=
  (strDictGet d k).getD dflt

/-- Membership in a query dictionary. -/
def strDictHas (d : List (String × String)) (k : String) : Bool :=
  (strDictGet d k).isSome

/-- Trojan/TUIC query parsing:
`dict(qp.split('=') for qp in query.split('&') if '=' in qp)`.
A token containing more than one `=` makes `dict(...)` raise `ValueError`
(a 3-element sequence is not a key/value pair), failing the whole parse;
tokens without `=` are filtered out; duplicate keys overwrite. -/
def queryDictStrictGo : List (List Char) → List (String × String) → Option (List (String × String))
  | [], acc => some acc
  | tok :: rest, acc =>
      match splitAllOn '=' tok with
      | [_] => queryDictStrictGo rest acc
      | [k, v] => queryDictStrictGo rest (strDictSet acc (String.mk k) (String.mk v))
      | _ => Option.none

/-- Trojan/TUIC query parsing, see `queryDictStrictGo`. -/
def queryDictStrict (query : List Char) : Option (List (String × String)) :=
  queryDictStrictGo (splitAllOn '&' query) []

/-- VLESS query parsing: a loop doing `k, v = param.split('=', 1)` for each
`&`-separated token that contains `=` (safe against extra `=`). -/
def queryDictLooseGo : List (List Char) → List (String × String) → List (String × String)
  | [], acc => acc
  | tok :: rest, acc =>
      match splitFirstOn '=' tok with
      | some (k, v) => queryDictLooseGo rest (strDictSet acc (String.mk k) (String.mk v))
      | Option.none => queryDictLooseGo rest acc

/-- VLESS query parsing, see `queryDictLooseGo`. -/
def queryDictLoose (query : List Char) : List (String × String) :=
  queryDictLooseGo (splitAllOn '&' query) []

/-- PyVal equality with a string (Python `v == "lit"`; non-strings compare
unequal). -/
def pyEqStr (v : PyVal) (s : String) : Bool :=
  match v with
  | .str s2 => s2 = s
  | _ => false

/-- Split at the first `#` when present (`a, *rest = s.split('#', 1)`). -/
def hashSplit (cs : List Char) : List Char × Option (List Char) :=
  match splitFirstOn '#' cs with
  | some (a, b) => (a, some b)
  | Option.none => (cs, Option.none)

/-- Split at the first `?` when present, keeping presence
(`a, *rest = s.split('?', 1)`). -/
def qmarkSplit (cs : List Char) : List Char × Option (List Char) :=
  match splitFirstOn '?' cs with
  | some (a, b) => (a, some b)
  | Option.none => (cs, Option.none)

/-- Split at the first `?` when present, empty query otherwise. -/
def querySplit (cs : List Char) : List Char × List Char :=
  match splitFirstOn '?' cs with
  | some (a, b) => (a, b)
  | Option.none => (cs, [])

/-- The display name from an optional URL fragment: unquoted fragment when
present, the given default otherwise. -/
def fragName (fragOpt : Option (List Char)) (dflt : String) : String :=
  match fragOpt with
  | some f => String.mk (unquoteChars f)
  | Option.none => dflt

/-- The credential split of parser.py line 52:
`method, password = creds.split(':', 1) if ':' in creds else (creds, '')`. -/
def credsSplit (creds : List Char) : List Char × List Char :=
  match splitFirstOn ':' creds with
  | some (m, p) => (m, p)
  | Option.none => (creds, [])

/-- ProxyParser._parse_ss (src/parser/parser.py lines 22-68). -/
def parse_ss (link : String) : Option PyDict :=
  let (scheme, netloc, _, fragment) := urlsplitL link.data
  if scheme ≠ "ss".data then Option.none
  else
    let credsAndServer : Option (List Char × List Char) :=
      match splitFirstOn '@' netloc with
      | some (credsB64, serverInfo) =>
          -- try urlsafe decoding with forced padding, then the manual
          -- replace-then-standard fallback (line 41-44)
          match
            (b64DecodeUrlsafe (credsB64 ++ ['=', '='])).bind utf8DecodeStrict with
          | some creds => some (creds, serverInfo)
          | Option.none =>
              match
                (b64DecodeStd (b64UrlsafeTranslate credsB64 ++ ['=', '='])).bind
                  utf8DecodeStrict with
              | some creds => some (creds, serverInfo)
              | Option.none => Option.none
      | Option.none => some ([], netloc)
    match credsAndServer with
    | Option.none => Option.none
    | some (creds, serverInfo) =>
        match splitFirstOn ':' serverInfo with
        | Option.none => Option.none
        | some (server, portRaw) =>
            let port := (takeUntilStop (fun c => c = '#') portRaw).1
            let mp := credsSplit creds
            let name :=
              if fragment ≠ [] then String.mk (unquoteChars fragment)
              else "Shadowsocks-" ++ String.mk server ++ ":" ++ String.mk port
            match pyIntOfChars port with
            | Option.none => Option.none
            | some portInt =>
                some [("ps", .str name), ("type", .str "ss"),
                      ("server", .str (String.mk server)), ("port", .int portInt),
                      ("cipher", .str (String.mk mp.1)),
                      ("password", .str (String.mk mp.2)),
                      ("proxy_str", .str link)]

/-- ProxyParser._parse_vmess after base64+JSON loading (the body that maps
the loaded JSON object to the proxy dictionary, lines 83-103). -/
def vmessFromData (link : String) (data : PyDict) : Option PyDict :=
  match pyToInt (pyGetD data "port" .none) with
  | Option.none => Option.none
  | some port =>
      match pyToInt (pyGetD data "aid" (.int 0)) with
      | Option.none => Option.none
      | some aid =>
          let psDefault :=
            "VMess-" ++ pyDisplay (pyGetD data "add" .none) ++ ":" ++
              pyDisplay (pyGetD data "port" .none)
          let network := pyGetD data "net" (.str "tcp")
          let base : PyDict :=
            [("ps", pyGetD data "ps" (.str psDefault)), ("type", .str "vmess"),
             ("server", pyGetD data "add" .none), ("port", .int port),
             ("uuid", pyGetD data "id" .none), ("alterId", .int aid),
             ("cipher", .str "auto"), ("network", network),
             ("tls", .bool (pyEqStr (pyGetD data "tls" (.str "")) "tls")),
             ("proxy_str", .str link)]
          if pyEqStr network "ws" then
            let host :=
              match pyGet data "host" with
              | some v => v
              | Option.none => pyGetD data "add" .none
            some (base ++ [("ws-path", pyGetD data "path" (.str "/")),
                           ("ws-headers", .dict [("Host", host)])])
          else if pyEqStr network "grpc" then
            some (base ++ [("grpc-serviceName", pyGetD data "path" (.str ""))])
          else some base

/-- ProxyParser._parse_vmess (lines 70-106): strip the scheme, lenient
base64 with forced padding, UTF-8 decode, JSON load, then field mapping. -/
def parse_vmess (ext : PyExt) (link : String) : Option PyDict :=
  if !listStartsWith "vmess://".data link.data then Option.none
  else
    let encoded := link.data.drop 8
    match (b64DecodeStd (encoded ++ ['=', '='])).bind utf8DecodeStrict with
    | Option.none => Option.none
    | some decoded =>
        match ext.jsonLoads (String.mk decoded) with
        | some (.dict data) => vmessFromData link data
        | _ => Option.none

/-- Python value of an optional string given as characters. -/
def pyOfOptChars (o : Option (List Char)) : PyVal :=
  match o with
  | some cs => .str (String.mk cs)
  | Option.none => .none

/-- Python value of an optional int (`None` when absent). -/
def pyOfOptInt (o : Option Int) : PyVal :=
  match o with
  | some n => .int n
  | Option.none => .none

/-- ProxyParser._parse_trojan (lines 108-142). -/
def parse_trojan (link : String) : Option PyDict :=
  if !listStartsWith "trojan://".data link.data then Option.none
  else
    let (_, netloc, query, fragment) := urlsplitL link.data
    let password := pyOfOptChars (urlUsername netloc)
    let server := pyOfOptChars (urlHostname netloc)
    match urlPort netloc with
    | .error _ => Option.none
    | .ok portOpt =>
        let name :=
          if fragment ≠ [] then String.mk (unquoteChars fragment)
          else
            "Trojan-" ++ pyDisplay server ++ ":" ++
              pyDisplay (pyOfOptInt portOpt)
        match portOpt with
        | Option.none => Option.none
        | some port =>
            let base : PyDict :=
              [("ps", .str name), ("type", .str "trojan"), ("server", server),
               ("port", .int port), ("password", password), ("tls", .bool true),
               ("proxy_str", .str link)]
            match queryDictStrict query with
            | Option.none => Option.none
            | some q =>
                if strDictHas q "sni" then
                  some (base ++ [("servername", .str (strDictGetD q "sni" ""))])
                else if strDictHas q "peer" then
                  some (base ++ [("servername", .str (strDictGetD q "peer" ""))])
                else some base

/-- ProxyParser._parse_vless (lines 144-200): manual splitting on
`@`, `#`, `?`, `:` followed by query-parameter mapping. -/
def parse_vless (link : String) : Option PyDict :=
  if !listStartsWith "vless://".data link.data then Option.none
  else
    let body := link.data.drop 8
    match splitFirstOn '@' body with
    | Option.none => Option.none
    | some (uuidPart, remaining) =>
        let sf := hashSplit remaining
        let sq := querySplit sf.1
        match splitFirstOn ':' sq.1 with
        | Option.none => Option.none
        | some (server, portRaw) =>
            let q := queryDictLoose sq.2
            let name :=
              fragName sf.2 ("VLESS-" ++ String.mk server ++ ":" ++ String.mk portRaw)
            match pyIntOfChars portRaw with
            | Option.none => Option.none
            | some portInt =>
                let network := strDictGetD q "type" "tcp"
                let base : PyDict :=
                  [("ps", .str name), ("type", .str "vless"),
                   ("server", .str (String.mk server)), ("port", .int portInt),
                   ("uuid", .str (String.mk uuidPart)),
                   ("tls", .bool (strDictGetD q "security" "" = "tls")),
                   ("network", .str network),
                   ("flow", .str (strDictGetD q "flow" "")),
                   ("proxy_str", .str link)]
                let base2 :=
                  if network = "ws" then
                    base ++ [("ws-path", .str (strDictGetD q "path" "/")),
                             ("ws-headers",
                              .dict [("Host", .str (strDictGetD q "host" (String.mk server)))])]
                  else if network = "grpc" then
                    base ++ [("grpc-serviceName", .str (strDictGetD q "serviceName" "")),
                             ("grpc-mode", .str (strDictGetD q "mode" "gun"))]
                  else base
                if strDictHas q "sni" then
                  some (base2 ++ [("servername", .str (strDictGetD q "sni" ""))])
                else if strDictHas q "host" && network ≠ "ws" then
                  some (base2 ++ [("servername", .str (strDictGetD q "host" ""))])
                else some base2

/-- Membership test `"lit" in v` for the Hysteria2 `tls` settings value
(lines 233-237): for a dict it is key membership, for a string a substring
test, for a list element membership; for any other value Python raises
`TypeError` (modelled as `Option.none`). -/
def pyInContainer (key : String) (v : PyVal) : Option Bool :=
  match v with
  | .dict kvs => some (pyHasKey kvs key)
  | .str s => some (listContainsSub key.data s.data)
  | .list xs => some (xs.any (fun x => pyEqStr x key))
  | _ => Option.none

/-- Subscript `v["lit"]` for the same value: only a dict supports string
subscripts (`Option.none` models the `TypeError`/`KeyError`). -/
def pySubscript (key : String) (v : PyVal) : Option PyVal :=
  match v with
  | .dict kvs => pyGet kvs key
  | _ => Option.none

/-- ProxyParser._parse_hy2 (lines 202-243): fragment first, then URL-safe
base64 of a JSON object. -/
def parse_hy2 (ext : PyExt) (link : String) : Option PyDict :=
  if !listStartsWith "hy2://".data link.data then Option.none
  else
    let body := link.data.drop 6
    let sf := hashSplit body
    let name := fragName sf.2 "Hysteria2-Unknown"
    match (b64DecodeUrlsafe (sf.1 ++ ['=', '='])).bind utf8DecodeStrict with
    | Option.none => Option.none
    | some decoded =>
        match ext.jsonLoads (String.mk decoded) with
        | some (.dict cfg) =>
            let base : PyDict :=
              [("ps", .str name), ("type", .str "hysteria2"),
               ("server", pyGetD cfg "server" .none),
               ("port", pyGetD cfg "port" .none),
               ("password", pyGetD cfg "password" .none),
               ("tls", .bool true), ("proxy_str", .str link)]
            let tlsSettings := pyGetD cfg "tls" (.dict [])
            match pyInContainer "sni" tlsSettings with
            | Option.none => Option.none
            | some hasSni =>
                match
                  (if hasSni then
                    match pySubscript "sni" tlsSettings with
                    | some v => some [("servername", v)]
                    | Option.none => Option.none
                  else some []) with
                | Option.none => Option.none
                | some sniEntries =>
                    match pyInContainer "insecure" tlsSettings with
                    | Option.none => Option.none
                    | some hasIns =>
                        match
                          (if hasIns then
                            match pySubscript "insecure" tlsSettings with
                            | some v => some [("skip-cert-verify", v)]
                            | Option.none => Option.none
                          else some []) with
                        | Option.none => Option.none
                        | some insEntries => some (base ++ sniEntries ++ insEntries)
        | _ => Option.none

/-- One optional query-parameter transfer of _parse_tuic (lines 282-290):
when the key is present, compute the entry (failing the parse when its
conversion raises) and append it. -/
def tuicStep (q : List (String × String)) (d : Option PyDict) (k : String)
    (f : String → Option (String × PyVal)) : Option PyDict :=
  match d with
  | Option.none => Option.none
  | some d =>
      if strDictHas q k then
        match f (strDictGetD q k "") with
        | some kv => some (d ++ [kv])
        | Option.none => Option.none
      else some d

/-- ProxyParser._parse_tuic (lines 245-296): fragment first, URL-safe
base64 of `password@host:port?params`, then strict query parsing. -/
def parse_tuic (link : String) : Option PyDict :=
  if !listStartsWith "tuic://".data link.data then Option.none
  else
    let body := link.data.drop 7
    let sf := hashSplit body
    let name := fragName sf.2 "TUIC-Unknown"
    match (b64DecodeUrlsafe (sf.1 ++ ['=', '='])).bind utf8DecodeStrict with
    | Option.none => Option.none
    | some decoded =>
        let pq := qmarkSplit decoded
        match splitFirstOn '@' pq.1 with
        | Option.none => Option.none
        | some (password, serverPort) =>
            match splitFirstOn ':' serverPort with
            | Option.none => Option.none
            | some (server, portRaw) =>
                match pyIntOfChars portRaw with
                | Option.none => Option.none
                | some portInt =>
                    let base : PyDict :=
                      [("ps", .str name), ("type", .str "tuic"),
                       ("server", .str (String.mk server)), ("port", .int portInt),
                       ("password", .str (String.mk password)),
                       ("proxy_str", .str link)]
                    match pq.2 with
                    | Option.none => some base
                    | some query =>
                        match queryDictStrict query with
                        | Option.none => Option.none
                        | some q =>
                            let r := tuicStep q (some base) "version"
                              (fun v => (pyIntOfString v).map
                                (fun n => ("tuic_version", .int n)))
                            let r := tuicStep q r "udp_relay_mode"
                              (fun v => some ("udp-relay-mode", .str v))
                            let r := tuicStep q r "disable_sni"
                              (fun v => some ("disable-sni", .bool (v.toLower = "1")))
                            let r := tuicStep q r "congestion_controller"
                              (fun v => some ("congestion-controller", .str v))
                            let r := tuicStep q r "alpn"
                              (fun v => some ("alpn",
                                .list ((splitAllOn ',' v.data).map
                                  (fun seg => .str (String.mk seg)))))
                            let r := tuicStep q r "sni"
                              (fun v => some ("servername", .str v))
                            tuicStep q r "skip_cert_verify"
                              (fun v => some ("skip-cert-verify", .bool (v.toLower = "1")))

/-! ### The Clash-YAML bundle path (_parse_yaml_nodes, lines 298-413)

`yaml.safe_load` is abstracted by `PyExt.safeLoad`; everything after the
load is translated.  The entry loop has no per-entry exception handler: an
entry whose processing raises is modelled as `Except.error`, which aborts
the remaining entries (the broad handler at lines 409-412 then returns the
list built so far).
-/

/-- Lowercase hexadecimal digit. -/
def hexDigitChar (n : Nat) : Char :=
  if n < 10 then Char.ofNat (48 + n) else Char.ofNat (97 + (n - 10))

/-- Four lowercase hexadecimal digits. -/
def toHex4 (n : Nat) : List Char :=
  [hexDigitChar (n / 4096 % 16), hexDigitChar (n / 256 % 16),
   hexDigitChar (n / 16 % 16), hexDigitChar (n % 16)]

/-- Escape one character as `json.dumps` does with the default
`ensure_ascii=True` (non-ASCII becomes `\uXXXX`, astral characters a
surrogate pair). -/
def jsonEscapeChar (c : Char) : List Char :=
  let n := c.toNat
  if c = '"' then ['\\', '"']
  else if c = '\\' then ['\\', '\\']
  else if c = '\n' then ['\\', 'n']
  else if c = '\t' then ['\\', 't']
  else if c = '\r' then ['\\', 'r']
  else if n = 8 then ['\\', 'b']
  else if n = 12 then ['\\', 'f']
  else if n < 0x20 then '\\' :: 'u' :: toHex4 n
  else if n < 0x7f then [c]
  else if n < 0x10000 then '\\' :: 'u' :: toHex4 n
  else
    let m := n - 0x10000
    ('\\' :: 'u' :: toHex4 (0xD800 + m / 1024)) ++ ('\\' :: 'u' :: toHex4 (0xDC00 + m % 1024))

/-- JSON string-body escaping. -/
def jsonEscape (cs : List Char) : List Char :=
  cs.flatMap jsonEscapeChar

mutual
/-- Python `json.dumps` with default separators and `ensure_ascii`. -/
def pyJsonDumps : PyVal → String
  | .none => "null"
  | .bool b => if b then "true" else "false"
  | .int n => toString n
  | .str s => "\"" ++ String.mk (jsonEscape s.data) ++ "\""
  | .list xs => "[" ++ pyJsonDumpsList xs ++ "]"
  | .dict kvs => "\x7b" ++ pyJsonDumpsDict kvs ++ "\x7d"

def pyJsonDumpsList : List PyVal → String
  | [] => ""
  | [x] => pyJsonDumps x
  | x :: rest => pyJsonDumps x ++ ", " ++ pyJsonDumpsList rest

def pyJsonDumpsDict : List (String × PyVal) → String
  | [] => ""
  | [(k, v)] => "\"" ++ String.mk (jsonEscape k.data) ++ "\": " ++ pyJsonDumps v
  | (k, v) :: rest =>
      "\"" ++ String.mk (jsonEscape k.data) ++ "\": " ++ pyJsonDumps v ++ ", " ++
        pyJsonDumpsDict rest
end

/-- VMess reverse-construction of a link from YAML data (lines 324-337):
the `temp_data` pop/assign sequence followed by `json.dumps` and base64.
`Option.none` is the inner `except` branch (for example a missing `uuid`
key), which the source replaces by a plain fallback link. -/
def vmessYamlEncode (pdata : PyDict) : Option String :=
  let temp := pdata
  let (_, temp) := pyDictPop temp "name"
  let (aidOpt, temp) := pyDictPop temp "alterId"
  let temp := pyDictSet temp "aid" (aidOpt.getD (.int 0))
  match pyDictPop temp "server" with
  | (Option.none, _) => Option.none
  | (some serverV, temp) =>
      let temp := pyDictSet temp "add" serverV
      match pyDictPop temp "port" with
      | (Option.none, _) => Option.none
      | (some portV, temp) =>
          let temp := pyDictSet temp "port" (.str (pyDisplay portV))
          match pyDictPop temp "uuid" with
          | (Option.none, _) => Option.none
          | (some uuidV, temp) =>
              let temp := pyDictSet temp "id" uuidV
              let (netOpt, temp) := pyDictPop temp "network"
              let temp := pyDictSet temp "net" (netOpt.getD (.str "tcp"))
              let (pathOpt, temp) := pyDictPop temp "ws-path"
              let temp := pyDictSet temp "path" (pathOpt.getD (.str "/"))
              let (wshOpt, temp) := pyDictPop temp "ws-headers"
              match wshOpt.getD (.dict []) with
              | .dict wsh =>
                  let host := (pyGet wsh "Host").getD (pyGetD temp "add" .none)
                  let temp := pyDictSet temp "host" host
                  let temp := pyDictSet temp "tls"
                    (.str (if pyTruthy (pyGetD temp "tls" .none) then "tls" else ""))
                  some (String.mk
                    (rstripChar '=' (b64Encode (utf8Encode (pyJsonDumps (.dict temp)).data))))
              | _ => Option.none

/-- The reverse construction of `proxy_str` for one bundle entry
(lines 312-392).  `Except.error` marks the raise points that have no local
handler and therefore abort the whole entry loop: a non-mapping value where
a membership or subscript needs a container, and `",".join` over a
non-string `alpn` list. -/
def yamlProxyStr (p : PyDict) (ptype server port : PyVal) : Except Unit String :=
  if pyEqStr ptype "ss" then
    let cipher := pyGetD p "cipher" (.str "auto")
    let password := pyGetD p "password" (.str "")
    let creds := pyDisplay cipher ++ ":" ++ pyDisplay password
    let enc := String.mk (rstripChar '=' (b64EncodeUrlsafe (utf8Encode creds.data)))
    .ok ("ss://" ++ enc ++ "@" ++ pyDisplay server ++ ":" ++ pyDisplay port ++ "#" ++
      pyDisplay (pyGetD p "name" (.str "SS")))
  else if pyEqStr ptype "vmess" then
    match vmessYamlEncode p with
    | some enc => .ok ("vmess://" ++ enc)
    | Option.none => .ok ("vmess://" ++ pyDisplay server ++ ":" ++ pyDisplay port)
  else if pyEqStr ptype "trojan" then
    let password := pyGetD p "password" (.str "")
    let qs :=
      if pyHasKey p "servername" then "?sni=" ++ pyDisplay (pyGetD p "servername" .none)
      else ""
    .ok ("trojan://" ++ pyDisplay password ++ "@" ++ pyDisplay server ++ ":" ++
      pyDisplay port ++ qs ++ "#" ++ pyDisplay (pyGetD p "name" (.str "Trojan")))
  else if pyEqStr ptype "vless" then
    let uuid := pyGetD p "uuid" (.str "")
    let addIf (acc : List String) (cond : Bool) (piece : String) : List String :=
      if cond then acc ++ [piece] else acc
    let qp : List String := []
    let qp := addIf qp (pyHasKey p "security") ("security=" ++ pyDisplay (pyGetD p "security" .none))
    let qp := addIf qp (pyHasKey p "network") ("type=" ++ pyDisplay (pyGetD p "network" .none))
    let qp := addIf qp (pyHasKey p "flow") ("flow=" ++ pyDisplay (pyGetD p "flow" .none))
    let qp := addIf qp (pyHasKey p "ws-path") ("path=" ++ pyDisplay (pyGetD p "ws-path" .none))
    match
      (if pyHasKey p "ws-headers" then
        match pyInContainer "Host" (pyGetD p "ws-headers" .none) with
        | Option.none => Except.error ()
        | some true =>
            match pySubscript "Host" (pyGetD p "ws-headers" .none) with
            | some v => Except.ok (qp ++ ["host=" ++ pyDisplay v])
            | Option.none => Except.error ()
        | some false => Except.ok qp
      else Except.ok qp) with
    | .error e => .error e
    | .ok qp =>
        let qp := addIf qp (pyHasKey p "grpc-serviceName")
          ("serviceName=" ++ pyDisplay (pyGetD p "grpc-serviceName" .none))
        let qp := addIf qp (pyHasKey p "servername") ("sni=" ++ pyDisplay (pyGetD p "servername" .none))
        let qs := if qp ≠ [] then "?" ++ String.intercalate "&" qp else ""
        .ok ("vless://" ++ pyDisplay uuid ++ "@" ++ pyDisplay server ++ ":" ++
          pyDisplay port ++ qs ++ "#" ++ pyDisplay (pyGetD p "name" (.str "VLESS")))
  else if pyEqStr ptype "hysteria2" then
    let tlsSettings : PyDict :=
      (if pyHasKey p "servername" then [("sni", pyGetD p "servername" .none)] else []) ++
        (if pyHasKey p "skip-cert-verify" then [("insecure", pyGetD p "skip-cert-verify" .none)] else [])
    let linkData : PyDict :=
      [("server", server), ("port", port), ("password", pyGetD p "password" .none)] ++
        (if !tlsSettings.isEmpty then [("tls", .dict tlsSettings)] else [])
    let enc := String.mk (rstripChar '=' (b64EncodeUrlsafe (utf8Encode (pyJsonDumps (.dict linkData)).data)))
    .ok ("hy2://" ++ enc ++ "#" ++ pyDisplay (pyGetD p "name" (.str "Hysteria2")))
  else if pyEqStr ptype "tuic" then
    let addIf (acc : List String) (cond : Bool) (piece : String) : List String :=
      if cond then acc ++ [piece] else acc
    let qp : List String := []
    let qp := addIf qp (pyHasKey p "tuic_version") ("version=" ++ pyDisplay (pyGetD p "tuic_version" .none))
    let qp := addIf qp (pyHasKey p "udp-relay-mode")
      ("udp_relay_mode=" ++ pyDisplay (pyGetD p "udp-relay-mode" .none))
    let qp := addIf qp (pyHasKey p "disable-sni")
      ("disable_sni=" ++ (if pyTruthy (pyGetD p "disable-sni" .none) then "1" else "0"))
    let qp := addIf qp (pyHasKey p "congestion-controller")
      ("congestion_controller=" ++ pyDisplay (pyGetD p "congestion-controller" .none))
    match
      (if pyHasKey p "alpn" then
        match pyGetD p "alpn" .none with
        | .list xs =>
            -- ",".join raises TypeError unless every element is a string
            if xs.all (fun x => match x with | .str _ => true | _ => false) then
              Except.ok (qp ++ ["alpn=" ++ String.intercalate ","
                (xs.map (fun x => match x with | .str s => s | _ => ""))])
            else Except.error ()
        | _ => Except.ok qp
      else Except.ok qp) with
    | .error e => .error e
    | .ok qp =>
        let qp := addIf qp (pyHasKey p "servername") ("sni=" ++ pyDisplay (pyGetD p "servername" .none))
        let qp := addIf qp (pyHasKey p "skip-cert-verify")
          ("skip_cert_verify=" ++ (if pyTruthy (pyGetD p "skip-cert-verify" .none) then "1" else "0"))
        let qs := if qp ≠ [] then "?" ++ String.intercalate "&" qp else ""
        let main := pyDisplay (pyGetD p "password" .none) ++ "@" ++ pyDisplay server ++ ":" ++
          pyDisplay port ++ qs
        let enc := String.mk (rstripChar '=' (b64EncodeUrlsafe (utf8Encode main.data)))
        .ok ("tuic://" ++ enc ++ "#" ++ pyDisplay (pyGetD p "name" (.str "TUIC")))
  else
    .ok (pyDisplay ptype ++ "://" ++ pyDisplay server ++ ":" ++ pyDisplay port ++ "#" ++
      pyDisplay (pyGetD p "name" (.str "Unknown")))

/-- Processing of one bundle entry (lines 306-406).  `Except.error` = the
entry raised (non-mapping entry, or a raise point inside the reverse link
construction); `.ok Option.none` = the completeness check failed and the
entry was skipped with a warning; `.ok (some record)` = one record, the
constructor arguments updated with the entry data (`proxy_obj.data`). -/
def processYamlEntry (entry : PyVal) : Except Unit (Option PyDict) :=
  match entry with
  | .dict p =>
      let ptype := pyGetD p "type" .none
      let server := pyGetD p "server" .none
      let port := pyGetD p "port" .none
      if pyTruthy ptype && pyTruthy server && pyTruthy port then
        match yamlProxyStr p ptype server port with
        | .error e => .error e
        | .ok proxyStr =>
            let ps := pyGetD p "name"
              (.str (pyDisplay ptype ++ "-" ++ pyDisplay server ++ ":" ++ pyDisplay port))
            .ok (some (pyDictUpdate
              [("ps", ps), ("type", ptype), ("server", server), ("port", port),
               ("proxy_str", .str proxyStr)] p))
      else .ok Option.none
  | _ => .error ()

/-- The entry loop: an erroring entry aborts the remainder (the handler at
lines 409-412 returns the records accumulated so far). -/
def processYamlEntries : List PyVal → List PyDict
  | [] => []
  | entry :: rest =>
      match processYamlEntry entry with
      | .error _ => []
      | .ok Option.none => processYamlEntries rest
      | .ok (some r) => r :: processYamlEntries rest

/-- ProxyParser._parse_yaml_nodes on an already loaded document
(`Option.none` = `yaml.safe_load` raised `YAMLError`).  A document that is
not a mapping with a `proxies` key yields no records; a non-list `proxies`
value raises while starting the loop, which the broad handler turns into an
empty result. -/
def parse_yaml_nodes (loaded : Option PyVal) : List PyDict :=
  match loaded with
  | some (.dict data) =>
      if pyHasKey data "proxies" then
        match pyGetD data "proxies" .none with
        | .list entries => processYamlEntries entries
        | _ => []
      else []
  | _ => []

/-! ### ProxyParser.parse_raw_content (lines 415-490)

The Python method recurses into base64-decoded line content; the recursion
is made structural with a fuel argument (every unwrap strictly shrinks the
content, so any fuel at least the nesting depth is exact; the claims hold
for every fuel).  `parse_raw_content_data` returns the per-unit
dictionaries the method assembles just before the `Proxy(...)` constructor
call; the constructor call itself is modelled separately
(`buildProxyFromDict`) because its keyword arguments do not match
`Proxy.__init__` of src/models/proxy_model.py.
-/

/-- The bundle-detection test of line 428. -/
def containsMarker (content : String) : Bool :=
  listContainsSub "proxies:".data content.data ||
    listContainsSub "proxy-groups:".data content.data

/-- The base64-candidate test of line 443:
`re.fullmatch(r'^[A-Za-z0-9+/=]+$', line) and len(line) % 4 == 0`. -/
def b64LineCandidate (line : List Char) : Bool :=
  !line.isEmpty && line.all (fun c => (b64Val c).isSome || c = '=') &&
    line.length % 4 = 0

/-- The scheme dispatch of lines 458-469. -/
def dispatchLine (ext : PyExt) (line : List Char) : Option PyDict :=
  if listStartsWith "ss://".data line then parse_ss (String.mk line)
  else if listStartsWith "vmess://".data line then parse_vmess ext (String.mk line)
  else if listStartsWith "trojan://".data line then parse_trojan (String.mk line)
  else if listStartsWith "vless://".data line then parse_vless (String.mk line)
  else if listStartsWith "hy2://".data line then parse_hy2 ext (String.mk line)
  else if listStartsWith "tuic://".data line then parse_tuic (String.mk line)
  else Option.none

/-- One iteration of the line loop (lines 436-488), parameterised by the
recursive re-entry `rec` used for base64-unwrapped content. -/
def processLineStep (rec : String → String → List PyDict) (ext : PyExt)
    (src : String) (rawLine : List Char) : List PyDict :=
  let line := stripChars rawLine
  if line.isEmpty then []
  else if b64LineCandidate line then
    match (b64DecodeStd line).bind utf8DecodeStrict with
    | some decoded => rec (String.mk (stripChars decoded)) ("decoded_from_" ++ src)
    | Option.none =>
        match dispatchLine ext line with
        | some d => [d]
        | Option.none => []
  else
    match dispatchLine ext line with
    | some d => [d]
    | Option.none => []

/-- The loop over all lines. -/
def lineLoop (rec : String → String → List PyDict) (ext : PyExt) (src : String) :
    List (List Char) → List PyDict
  | [] => []
  | l :: ls => processLineStep rec ext src l ++ lineLoop rec ext src ls

/-- ProxyParser.parse_raw_content at the level of the per-unit
dictionaries: YAML bundle attempt first (kept only when non-empty), then
the line-oriented fallback with recursive base64 unwrapping. -/
def parse_raw_content_data (ext : PyExt) : Nat → String → String → List PyDict
  | 0, _, _ => []
  | fuel + 1, content, src =>
      let yamlRecords :=
        if containsMarker content then parse_yaml_nodes (ext.safeLoad content) else []
      if !yamlRecords.isEmpty then yamlRecords
      else
        lineLoop (fun c s => parse_raw_content_data ext fuel c s) ext src
          (splitAllOn '\n' (stripChars content.data))

/-! ### The canonical record (Proxy of src/models/proxy_model.py)

Fields exactly as accepted by `Proxy.__init__` (lines 6-52), plus the
attributes `validator.py` assigns dynamically (`delay`, `country`,
`regionName`).  `latency`/`delay`/`last_checked` are Python floats holding
millisecond/timestamp measurements, modelled as rationals.
-/

structure Proxy where
  name : String
  proxy_type : String
  server : String
  port : Int
  uuid : Option String := Option.none
  password : Option String := Option.none
  alter_id : Option Int := Option.none
  cipher : Option String := Option.none
  network : Option String := Option.none
  tls : Bool := false
  skip_cert_verify : Bool := false
  host : Option String := Option.none
  path : Option String := Option.none
  service_name : Option String := Option.none
  flow : Option String := Option.none
  obfs : Option String := Option.none
  obfs_password : Option String := Option.none
  raw_link : Option String := Option.none
  latency : Option ℚ := Option.none
  region : Option String := Option.none
  isp : Option String := Option.none
  last_checked : Option ℚ := Option.none
  delay : Option ℚ := Option.none
  country : Option String := Option.none
  regionName : Option String := Option.none
deriving DecidableEq, Repr

/-- The parameter names accepted by `Proxy.__init__` (lines 7-30). -/
def proxyInitParams : List String :=
  ["name", "proxy_type", "server", "port", "uuid", "password", "alter_id",
   "cipher", "network", "tls", "skip_cert_verify", "host", "path",
   "service_name", "flow", "obfs", "obfs_password", "raw_link", "latency",
   "region", "isp", "last_checked"]

/-- The parameters of `Proxy.__init__` without a default value. -/
def proxyInitRequired : List String :=
  ["name", "proxy_type", "server", "port"]

/-- The keyword arguments of the `Proxy(...)` calls in
src/parser/parser.py (lines 395-401 and 475-481). -/
def parserCallKwargs : List String :=
  ["proxy_str", "ps", "ptype", "server", "port"]

/-- Python keyword-call compatibility: every supplied keyword must be an
accepted parameter and every parameter without a default must be supplied,
otherwise the call raises `TypeError`. -/
def pyCallOk (params required kwargs : List String) : Bool :=
  kwargs.all params.contains && required.all kwargs.contains

/-- The `Proxy(...)` constructor call of parse_raw_content (lines 475-483):
it succeeds only if the keyword call is compatible with `Proxy.__init__`;
the `except` at line 485 turns the `TypeError` into a skipped record. -/
def buildProxyFromDict (d : PyDict) : Option Proxy :=
  if pyCallOk proxyInitParams proxyInitRequired parserCallKwargs then
    some { name := pyDisplay (pyGetD d "ps" .none),
           proxy_type := pyDisplay (pyGetD d "type" .none),
           server := pyDisplay (pyGetD d "server" .none),
           port := (pyToInt (pyGetD d "port" .none)).getD 0,
           raw_link := some (pyDisplay (pyGetD d "proxy_str" .none)) }
  else Option.none

/-- ProxyParser.parse_raw_content at the level of constructed `Proxy`
records: each per-unit dictionary goes through the constructor call, whose
failure skips exactly that unit (line path) or — in the bundle path, where
the loop has no per-entry handler — would abort the remaining entries; both
collapse to the same output because the constructor call never succeeds. -/
def parse_raw_content (ext : PyExt) (fuel : Nat) (content src : String) : List Proxy :=
  (parse_raw_content_data ext fuel content src).filterMap buildProxyFromDict

/-! ### Identity key and deduplication
(Proxy.generate_key, models/proxy_model.py lines 81-97;
ProxyParser.deduplicate_proxies, parser.py lines 492-509) -/

/-- The name normalisation of line 84:
`self.name.split(' ')[0] if self.name else ''`. -/
def normalizedName (name : String) : String :=
  if name ≠ "" then String.mk (name.data.takeWhile (fun c => c ≠ ' ')) else ""

/-- Proxy.generate_key (lines 81-97): join the protocol-relevant parts plus
the normalised display name with `:` and lowercase the result.  All parts
are strings (`None` credentials were already replaced by `''`), so the
`if p is not None` filter of line 97 never drops anything.  Python
`str.lower` is modelled by the ASCII per-character lowercase
(`pyStrLower`). -/
def pyStrLower (s : String) : String :=
  String.mk (s.data.map Char.toLower)

/-- Python `":".join(parts)`. -/
def pyJoin (sep : String) : List String → String
  | [] => ""
  | [x] => x
  | x :: rest => x ++ sep ++ pyJoin sep rest

/-- The parts list of generate_key (lines 85-96). -/
def keyParts (p : Proxy) : List String :=
  [p.proxy_type, p.server, toString p.port,
   p.uuid.getD "", p.password.getD "", p.cipher.getD "",
   p.network.getD "", p.host.getD "", p.path.getD "",
   normalizedName p.name]

/-- Proxy.generate_key, continued: join with `:` and lowercase. -/
def generate_key (p : Proxy) : String :=
  pyStrLower (pyJoin ":" (keyParts p))

/-- The first-seen-wins loop of deduplicate_proxies, with the `seen_keys`
set as a key list. -/
def dedupAux (seen : List String) : List Proxy → List Proxy
  | [] => []
  | p :: ps =>
      let key := generate_key p
      if seen.contains key then dedupAux seen ps
      else p :: dedupAux (key :: seen) ps

/-- ProxyParser.deduplicate_proxies (lines 492-509). -/
def deduplicate_proxies (proxies : List Proxy) : List Proxy :=
  dedupAux [] proxies

/-! ### ProxyValidator.validate_proxy (src/validator/validator.py lines 122-166)

The method begins by reading four attributes off the record —
`proxy.type`, `proxy.server`, `proxy.port`, `proxy.ps` (lines 130-133) —
and, on the incomplete-record branch, `proxy.proxy_str` inside the warning
message of line 136.  In Python, reading an attribute the object does not
have raises `AttributeError`, and no handler is in scope anywhere in
`validate_proxy`; likewise the `config.ENABLE_HTTP_CHECK` lookup of line
151 raises `AttributeError` when the config module does not define that
name.  The embedding therefore takes the attribute environments as
parameters: `proxyAttr` is the attribute set of the record class — for the
shipped class of src/models/proxy_model.py this is `shippedProxyAttr`,
exactly the `Proxy.__init__` parameters it assigns to `self` — and
`configAttr` the set of module-level names the config module defines
(`shippedConfigAttr`, from src/config.py).  `enableHttp` is the value
`config.ENABLE_HTTP_CHECK` would have when defined.  The two network
probes stay oracle outcomes: `tcpLatency` from `_check_tcp_latency`
(`some` = connection established, with the measured latency;
`Option.none` = timeout/refusal — that helper catches its own exceptions,
lines 47-52) and `httpOk` from `_check_http_access` (which catches its
own exceptions, lines 112-120).  The result pairs the record after any
in-place mutation — line 148 assigns `proxy.delay` before the line-151
lookup can raise — with the call outcome: `Except.error ()` means an
`AttributeError` escaped the call, `Except.ok Option.none` that it
returned Python `None`, `Except.ok (some r)` that it returned the
record. -/

/-- The attributes a shipped `Proxy` instance has: `__init__`
(src/models/proxy_model.py lines 7-52) assigns `self.<p>` for exactly its
parameters.  Neither `type` nor `ps` nor `proxy_str` is among them. -/
def shippedProxyAttr (a : String) : Bool :=
  proxyInitParams.contains a

/-- The module-level names defined by src/config.py (its nine
assignments). -/
def configModuleNames : List String :=
  ["PROXY_SOURCES", "FETCH_TIMEOUT", "PROXY_CHECK_TIMEOUT",
   "MAX_CONCURRENT_CHECKS", "IP_API_URL", "OUTPUT_DIR",
   "JSON_OUTPUT_FILENAME", "CLASH_OUTPUT_FILENAME", "TOP_N_PROXIES"]

/-- Attribute lookup on the shipped config module: `ENABLE_HTTP_CHECK` is
absent (so is `TEST_HTTP_URL`, but that one is only read inside the
try of `_check_http_access`, where it would be caught). -/
def shippedConfigAttr (a : String) : Bool :=
  configModuleNames.contains a

/-- The completeness guard of line 135, Python truthiness of
`[proxy_type, server, port]`. -/
def proxyInfoComplete (p : Proxy) : Bool :=
  p.proxy_type ≠ "" && p.server ≠ "" && p.port ≠ 0

/-- ProxyValidator.validate_proxy, with the raise paths explicit. -/
def validate_proxy (proxyAttr : String → Bool) (configAttr : String → Bool)
    (enableHttp : Bool) (tcpLatency : Option ℚ) (httpOk : Bool)
    (p : Proxy) : Proxy × Except Unit (Option Proxy) :=
  if !(proxyAttr "type" && proxyAttr "server" && proxyAttr "port" &&
       proxyAttr "ps") then
    (p, Except.error ())
  else if !proxyInfoComplete p then
    if proxyAttr "proxy_str" then (p, Except.ok Option.none)
    else (p, Except.error ())
  else
    match tcpLatency with
    | Option.none => (p, Except.ok Option.none)
    | some lat =>
        let p2 : Proxy := { p with delay := some lat }
        if !configAttr "ENABLE_HTTP_CHECK" then (p2, Except.error ())
        else if enableHttp && !httpOk then (p2, Except.ok Option.none)
        else
          let p3 : Proxy :=
            { p2 with country := Option.none, regionName := Option.none,
                      isp := Option.none }
          (p3, Except.ok (some p3))

/-! ### The Ranking Assembler (src/main.py lines 78-92) -/

/-- The sort key `lambda p: p.delay` of line 83 (on the filtered list every
delay is present; absent is compared as 0 only formally). -/
def delayLe (a b : Proxy) : Prop :=
  a.delay.getD 0 ≤ b.delay.getD 0

instance delayLeDecidable : DecidableRel delayLe := fun a b =>
  inferInstanceAs (Decidable (a.delay.getD 0 ≤ b.delay.getD 0))

/-- Steps 5-6 of main (lines 78-92): drop records without a delay, sort
ascending by delay with a stable sort (Python `sorted`), and keep the
leading slice when `config.TOP_N_PROXIES` is not `None` and positive. -/
def rank_proxies (topN : Option Int) (validated : List Proxy) : List Proxy :=
  let sortedProxies := (validated.filter (fun p => p.delay.isSome)).insertionSort delayLe
  match topN with
  | some n => if 0 < n then sortedProxies.take n.toNat else sortedProxies
  | Option.none => sortedProxies

/-! ### The admission gate of validate_proxies_concurrently
(src/validator/validator.py lines 168-194)

`limited_validate` wraps every per-record check in
`async with semaphore: return await task`; the `async with` construct
acquires the counting semaphore before the check starts and releases it on
every exit path of the body — normal return, failure result, timeout, or
exception.  This is modelled as a transition system over the counts of
records not yet admitted (`waiting`), checks in flight (`running`), free
gate permits (`avail`) and finished checks (`done`): an `acquire` step
consumes a permit and admits one waiting record; a `finish` step — with any
outcome — retires one running check and returns its permit.  An
exceptional exit of the check body — such as the `AttributeError` that
`validate_proxy` itself raises on the shipped classes, recorded under
C3 — is the `exc` outcome: the `async with` construct returns the permit
on that path too. -/

/-- Exit paths of one check. -/
inductive CheckOutcome where
  | ok : CheckOutcome
  | fail : CheckOutcome
  | timeout : CheckOutcome
  | exc : CheckOutcome

/-- Scheduler state: records not yet admitted, checks in flight, free
permits, finished checks. -/
structure GateState where
  waiting : Nat
  running : Nat
  avail : Nat
  done : Nat
deriving DecidableEq, Repr

/-- One scheduler transition. -/
inductive GateStep : GateState → GateState → Prop
  | acquire (w r a d : Nat) :
      GateStep ⟨w + 1, r, a + 1, d⟩ ⟨w, r + 1, a, d⟩
  | finish (o : CheckOutcome) (w r a d : Nat) :
      GateStep ⟨w, r + 1, a, d⟩ ⟨w, r, a + 1, d + 1⟩

/-- Initial state for `M` records under concurrency ceiling `N`
(`config.MAX_CONCURRENT_CHECKS`). -/
def gateInit (M N : Nat) : GateState :=
  ⟨M, 0, N, 0⟩

/-- Reachability along scheduler transitions. -/
def GateReach (M N : Nat) (s : GateState) : Prop :=
  Relation.ReflTransGen GateStep (gateInit M N) s

/-! ### Auxiliary definitions for the claim statements -/

/-- The record invariant of the decode stage: the `type`, `server`, `port`
and `ps` keys are present and the `type` value is truthy. -/
def recInv (d : PyDict) : Prop :=
  pyHasKey d "type" = true ∧ pyHasKey d "server" = true ∧
    pyHasKey d "port" = true ∧ pyHasKey d "ps" = true ∧
    pyTruthy (pyGetD d "type" .none) = true

/-- Pairwise-distinct string keys. -/
def strKeysNodup : List String → Bool
  | [] => true
  | k :: rest => !rest.contains k && strKeysNodup rest

mutual
/-- Wellformedness of a loaded document: every mapping has pairwise
distinct keys (as `yaml.safe_load` and `json.loads` guarantee, since a
Python dict cannot hold duplicate keys). -/
def pyWF : PyVal → Bool
  | .dict kvs => strKeysNodup (kvs.map Prod.fst) && pyWFKVs kvs
  | .list xs => pyWFList xs
  | _ => true

def pyWFList : List PyVal → Bool
  | [] => true
  | x :: rest => pyWF x && pyWFList rest

def pyWFKVs : List (String × PyVal) → Bool
  | [] => true
  | (_, v) :: rest => pyWF v && pyWFKVs rest
end

/-- A concrete external-loader instance whose loaders always raise; used
for closed evaluations whose content never reaches a loader. -/
def extNone : PyExt :=
  { safeLoad := fun _ => Option.none, jsonLoads := fun _ => Option.none }

/-- The example blob of the specification. -/
def ssBlob : String :=
  "ss://YWVzLTI1Ni1nY206cGFzcw==@1.2.3.4:8388#Test"

/-- The record the decode stage assembles from `ssBlob`. -/
def ssRecord : PyDict :=
  [("ps", .str "Test"), ("type", .str "ss"), ("server", .str "1.2.3.4"),
   ("port", .int 8388), ("cipher", .str "aes-256-gcm"),
   ("password", .str "pass"), ("proxy_str", .str ssBlob)]

/-- The same endpoint with an out-of-range port. -/
def ssBlob99999 : String := "ss://YWVzLTI1Ni1nY206cGFzcw==@1.2.3.4:99999#X"

/-- A concrete record with display name `A`. -/
def cpA : Proxy :=
  { name := "A", proxy_type := "ss", server := "1.2.3.4", port := 8388,
    cipher := some "aes-256-gcm", password := some "pass" }

/-- The same record with display name `B`. -/
def cpB : Proxy := { cpA with name := "B" }

/-- The same record with display name `Test A`. -/
def cpTestA : Proxy := { cpA with name := "Test A" }

/-- The same record with display name `Test B`. -/
def cpTestB : Proxy := { cpA with name := "Test B" }

/-- A concrete record with mixed-case identity fields. -/
def cpSecret : Proxy :=
  { name := "N", proxy_type := "trojan", server := "Host.Example", port := 443,
    password := some "Secret" }

/-- The same record with the identity fields lowercased. -/
def cpSecretLower : Proxy :=
  { cpSecret with server := "host.example", password := some "secret" }

/-- A concrete complete record (truthy type, server and port). -/
def cpComplete : Proxy :=
  { name := "N", proxy_type := "ss", server := "1.2.3.4", port := 8388 }

/-- A concrete validated record with the given measured delay. -/
def cpDelay (q : ℚ) : Proxy :=
  { name := "n", proxy_type := "ss", server := "h", port := 1, delay := some q }

/-- A concrete complete Clash-YAML bundle entry. -/
def goodSSEntry : PyVal :=
  .dict [("name", .str "N"), ("type", .str "ss"), ("server", .str "h"),
         ("port", .int 80), ("cipher", .str "aes"), ("password", .str "pw")]

instance : IsTotal Proxy delayLe :=
  ⟨fun a b => le_total (a.delay.getD 0) (b.delay.getD 0)⟩

instance : IsTrans Proxy delayLe :=
  ⟨fun _ _ _ hab hbc => le_trans hab hbc⟩

/-! ### Helper lemmas -/

/-- Lowercasing distributes over string append. -/
theorem pyStrLower_append (a b : String) :
    pyStrLower (a ++ b) = pyStrLower a ++ pyStrLower b := by
  cases a with
  | mk da =>
    cases b with
    | mk db =>
      show pyStrLower (String.mk (da ++ db)) = _
      simp only [pyStrLower, List.map_append]
      rfl

/-- Lowercasing commutes with the colon join of generate_key. -/
theorem pyStrLower_join_colon (l : List String) :
    pyStrLower (pyJoin ":" l) = pyJoin ":" (l.map pyStrLower) := by
  induction l with
  | nil => rfl
  | cons x rest ih =>
    cases rest with
    | nil => rfl
    | cons y ys =>
      show pyStrLower (x ++ ":" ++ pyJoin ":" (y :: ys)) = _
      rw [pyStrLower_append, pyStrLower_append, ih]
      rfl

/-- A lookup that succeeds in the prefix is unchanged by appending. -/
theorem pyGet_append_of_isSome (d1 d2 : PyDict) (k : String)
    (h : (pyGet d1 k).isSome = true) : pyGet (d1 ++ d2) k = pyGet d1 k := by
  induction d1 with
  | nil => simp [pyGet] at h
  | cons kv rest ih =>
      obtain ⟨k2, v⟩ := kv
      by_cases he : k2 = k
      · simp [pyGet, he]
      · simp only [pyGet, he, if_false, List.cons_append] at h ⊢
        exact ih h

/-- The record invariant is preserved by appending further entries. -/
theorem recInv_append (d : PyDict) (extra : PyDict) (h : recInv d) :
    recInv (d ++ extra) := by
  obtain ⟨h1, h2, h3, h4, h5⟩ := h
  refine ⟨?_, ?_, ?_, ?_, ?_⟩
  · rw [pyHasKey, pyGet_append_of_isSome _ _ _ h1]
    exact h1
  · rw [pyHasKey, pyGet_append_of_isSome _ _ _ h2]
    exact h2
  · rw [pyHasKey, pyGet_append_of_isSome _ _ _ h3]
    exact h3
  · rw [pyHasKey, pyGet_append_of_isSome _ _ _ h4]
    exact h4
  · rw [pyGetD, pyGet_append_of_isSome _ _ _ h1]
    exact h5

/-- Lookup of a key that is not among the keys fails. -/
theorem pyGet_eq_none_of_not_contains (d : PyDict) (k : String)
    (h : (d.map Prod.fst).contains k = false) : pyGet d k = Option.none := by
  induction d with
  | nil => rfl
  | cons kv rest ih =>
      obtain ⟨k2, v⟩ := kv
      simp only [List.map_cons, List.contains_cons, Bool.or_eq_false_iff] at h
      have hne : k2 ≠ k := by
        intro he
        subst he
        simp at h
      simp only [pyGet, hne, if_false]
      exact ih h.2

/-- Lookup after assignment of the same key. -/
theorem pyGet_set_same (d : PyDict) (k : String) (v : PyVal) :
    pyGet (pyDictSet d k v) k = some v := by
  induction d with
  | nil => simp [pyDictSet, pyGet]
  | cons kv rest ih =>
      obtain ⟨k2, w⟩ := kv
      by_cases he : k2 = k
      · simp [pyDictSet, pyGet, he]
      · simp only [pyDictSet, he, if_false, pyGet]
        exact ih

/-- Assignment of a different key leaves a lookup unchanged. -/
theorem pyGet_set_other (d : PyDict) (k2 k : String) (v : PyVal) (hne : k2 ≠ k) :
    pyGet (pyDictSet d k2 v) k = pyGet d k := by
  induction d with
  | nil => simp [pyDictSet, pyGet, hne]
  | cons kv rest ih =>
      obtain ⟨k3, w⟩ := kv
      by_cases he : k3 = k2
      · subst he
        simp [pyDictSet, pyGet, hne]
      · simp only [pyDictSet, he, if_false, pyGet]
        by_cases he2 : k3 = k
        · simp [he2]
        · simp only [he2, if_false]
          exact ih

/-- Lookup after a bulk update with pairwise distinct keys: the updating value wins when present. -/
theorem pyGet_update (d other : PyDict) (k : String)
    (hnodup : strKeysNodup (other.map Prod.fst) = true) :
    pyGet (pyDictUpdate d other) k =
      match pyGet other k with
      | some v => some v
      | Option.none => pyGet d k := by
  induction other generalizing d with
  | nil => rfl
  | cons kv rest ih =>
      obtain ⟨k2, v⟩ := kv
      simp only [List.map_cons, strKeysNodup, Bool.and_eq_true,
        Bool.not_eq_true'] at hnodup
      obtain ⟨hnc, hnd⟩ := hnodup
      show pyGet (pyDictUpdate (pyDictSet d k2 v) rest) k = _
      rw [ih _ hnd]
      by_cases he : k2 = k
      · subst he
        rw [pyGet_eq_none_of_not_contains rest k2 hnc]
        simp [pyGet, pyGet_set_same]
      · simp only [pyGet, he, if_false]
        cases hr : pyGet rest k
        · simp only []
          exact pyGet_set_other d k2 k v he
        · rfl

/-- Values of a wellformed mapping are wellformed. -/
theorem pyWFKVs_values (kvs : List (String × PyVal)) (hwf : pyWFKVs kvs = true)
    (k : String) (v : PyVal) (h : pyGet kvs k = some v) : pyWF v = true := by
  induction kvs with
  | nil => cases h
  | cons kv rest ih =>
      obtain ⟨k2, w⟩ := kv
      simp only [pyWFKVs, Bool.and_eq_true] at hwf
      by_cases he : k2 = k
      · simp only [pyGet, he, if_true] at h
        cases h
        exact hwf.1
      · simp only [pyGet, he, if_false] at h
        exact ih hwf.2 h

/-- The deduplication loop returns a subsequence of its input. -/
theorem dedupAux_sublist (seen : List String) (l : List Proxy) :
    (dedupAux seen l).Sublist l := by
  induction l generalizing seen with
  | nil => simp [dedupAux]
  | cons p ps ih =>
      rw [dedupAux]
      by_cases hc : seen.contains (generate_key p) = true
      · rw [if_pos hc]
        exact (ih seen).cons p
      · rw [if_neg hc]
        exact (ih _).cons₂ p

/-- The keys of the deduplicated output are pairwise distinct and disjoint from the seen set. -/
theorem dedupAux_keys_nodup (seen : List String) (l : List Proxy) :
    ((dedupAux seen l).map generate_key).Nodup ∧
      ∀ k ∈ (dedupAux seen l).map generate_key, k ∉ seen := by
  induction l generalizing seen with
  | nil => simp [dedupAux]
  | cons p ps ih =>
      rw [dedupAux]
      by_cases hc : seen.contains (generate_key p) = true
      · rw [if_pos hc]
        exact ih seen
      · rw [if_neg hc]
        simp only [List.map_cons, List.nodup_cons]
        have hmem : generate_key p ∉ seen := by
          simpa using hc
        obtain ⟨ihn, ihf⟩ := ih (generate_key p :: seen)
        refine ⟨⟨?_, ihn⟩, ?_⟩
        · intro hin
          exact (ihf _ hin) (List.mem_cons_self _ _)
        · intro k hk
          rcases List.mem_cons.mp hk with hk | hk
          · exact hk ▸ hmem
          · intro hks
            exact (ihf k hk) (List.mem_cons_of_mem _ hks)

/-- Every input key is either already seen or represented in the output. -/
theorem dedupAux_covers (seen : List String) (l : List Proxy) :
    ∀ p ∈ l, generate_key p ∈ seen ∨
      generate_key p ∈ (dedupAux seen l).map generate_key := by
  induction l generalizing seen with
  | nil => simp
  | cons q ps ih =>
      intro p hp
      rw [dedupAux]
      by_cases hc : seen.contains (generate_key q) = true
      · rw [if_pos hc]
        rcases List.mem_cons.mp hp with rfl | hp
        · exact Or.inl (by simpa using hc)
        · exact ih seen p hp
      · rw [if_neg hc]
        simp only [List.map_cons]
        rcases List.mem_cons.mp hp with rfl | hp
        · exact Or.inr (List.mem_cons_self _ _)
        · rcases ih (generate_key q :: seen) p hp with hs | ho
          · rcases List.mem_cons.mp hs with he | hs
            · exact Or.inr (he ▸ List.mem_cons_self _ _)
            · exact Or.inl hs
          · exact Or.inr (List.mem_cons_of_mem _ ho)

/-- An element whose key has not occurred before it (nor in the seen set) is kept. -/
theorem dedupAux_keeps_first (seen : List String) (l1 : List Proxy) (p : Proxy)
    (l2 : List Proxy) (hnot : generate_key p ∉ l1.map generate_key)
    (hseen : generate_key p ∉ seen) :
    p ∈ dedupAux seen (l1 ++ p :: l2) := by
  induction l1 generalizing seen with
  | nil =>
      rw [List.nil_append, dedupAux]
      have : ¬ seen.contains (generate_key p) = true := by simpa using hseen
      rw [if_neg this]
      exact List.mem_cons_self _ _
  | cons a l1 ih =>
      rw [List.cons_append, dedupAux]
      have hne : generate_key p ≠ generate_key a := by
        intro he
        exact hnot (by simp [he])
      have hnot2 : generate_key p ∉ l1.map generate_key := by
        intro h
        exact hnot (by simp [h])
      by_cases hc : seen.contains (generate_key a) = true
      · rw [if_pos hc]
        exact ih seen hnot2 hseen
      · rw [if_neg hc]
        refine List.mem_cons_of_mem _ (ih _ hnot2 ?_)
        intro h
        rcases List.mem_cons.mp h with h | h
        · exact hne h
        · exact hseen h

/-- Every kept element is the first occurrence of its key. -/
theorem dedupAux_mem_first (seen : List String) (l : List Proxy) :
    ∀ p ∈ dedupAux seen l, ∃ l1 l2, l = l1 ++ p :: l2 ∧
      generate_key p ∉ l1.map generate_key := by
  induction l generalizing seen with
  | nil => simp [dedupAux]
  | cons a ps ih =>
      intro p hp
      have hfresh : generate_key p ∉ seen := by
        have h2 := (dedupAux_keys_nodup seen (a :: ps)).2
        exact h2 _ (List.mem_map_of_mem _ hp)
      rw [dedupAux] at hp
      by_cases hc : seen.contains (generate_key a) = true
      · rw [if_pos hc] at hp
        obtain ⟨l1, l2, rfl, hk⟩ := ih seen p hp
        refine ⟨a :: l1, l2, rfl, ?_⟩
        intro h
        rcases List.mem_cons.mp h with h | h
        · exact hfresh (h ▸ (by simpa using hc))
        · exact hk h
      · rw [if_neg hc] at hp
        rcases List.mem_cons.mp hp with rfl | hp
        · exact ⟨[], ps, rfl, by simp⟩
        · have hfresh2 : generate_key p ∉ generate_key a :: seen := by
            have h2 := (dedupAux_keys_nodup (generate_key a :: seen) ps).2
            exact h2 _ (List.mem_map_of_mem _ hp)
          obtain ⟨l1, l2, rfl, hk⟩ := ih _ p hp
          refine ⟨a :: l1, l2, rfl, ?_⟩
          intro h
          rcases List.mem_cons.mp h with h | h
          · exact hfresh2 (h ▸ List.mem_cons_self _ _)
          · exact hk h

/-- The deduplication loop fixes a list whose keys are fresh and pairwise distinct. -/
theorem dedupAux_eq_self (seen : List String) (u : List Proxy)
    (hfresh : ∀ p ∈ u, generate_key p ∉ seen)
    (hnodup : (u.map generate_key).Nodup) :
    dedupAux seen u = u := by
  induction u generalizing seen with
  | nil => rfl
  | cons a ps ih =>
      rw [dedupAux]
      have hc : ¬ seen.contains (generate_key a) = true := by
        simpa using hfresh a (List.mem_cons_self _ _)
      rw [if_neg hc]
      rw [List.map_cons, List.nodup_cons] at hnodup
      congr 1
      refine ih _ ?_ hnodup.2
      intro p hp hmem
      rcases List.mem_cons.mp hmem with h | h
      · exact hnodup.1 (h ▸ List.mem_map_of_mem _ hp)
      · exact hfresh p (List.mem_cons_of_mem _ hp) h

/-- Filtering an ordered insert by an exact delay value: the inserted element lands in front of the equal-delay elements already present (stability of the insertion step). -/
theorem orderedInsert_filter_delay (d : ℚ) (x : Proxy) (s : List Proxy) :
    (s.orderedInsert delayLe x).filter (fun p => decide (p.delay.getD 0 = d)) =
      if x.delay.getD 0 = d then
        x :: s.filter (fun p => decide (p.delay.getD 0 = d))
      else s.filter (fun p => decide (p.delay.getD 0 = d)) := by
  induction s with
  | nil =>
      simp only [List.orderedInsert, List.filter]
      split_ifs with h
      · simp [h]
      · simp [h]
  | cons y ys ih =>
      by_cases hxy : delayLe x y
      · rw [List.orderedInsert, if_pos hxy]
        simp only [List.filter]
        split_ifs <;> simp_all
      · rw [List.orderedInsert, if_neg hxy]
        have hlt : y.delay.getD 0 < x.delay.getD 0 := lt_of_not_le hxy
        simp only [List.filter_cons]
        rw [ih]
        split_ifs <;> simp_all

/-- Stability of the insertion sort: elements of equal delay keep their relative input order. -/
theorem insertionSort_filter_delay (d : ℚ) (l : List Proxy) :
    (l.insertionSort delayLe).filter (fun p => decide (p.delay.getD 0 = d)) =
      l.filter (fun p => decide (p.delay.getD 0 = d)) := by
  induction l with
  | nil => rfl
  | cons x xs ih =>
      rw [List.insertionSort, orderedInsert_filter_delay, List.filter_cons]
      split_ifs with h1 <;> simp_all

/-- The line loop is the concatenation of the per-line results. -/
theorem lineLoop_eq_flatMap (rec : String → String → List PyDict) (ext : PyExt)
    (src : String) (ls : List (List Char)) :
    lineLoop rec ext src ls = ls.flatMap (processLineStep rec ext src) := by
  induction ls with
  | nil => rfl
  | cons l rest ih => simp [lineLoop, ih]

set_option maxRecDepth 8192 in
/-- Every record produced by the ss decoder carries type, server, port and ps keys with a truthy type. -/
theorem parse_ss_inv (link : String) (d : PyDict) (h : parse_ss link = some d) :
    recInv d := by
  unfold parse_ss at h
  repeat (any_goals split at h)
  all_goals try simp_all [recInv, pyHasKey, pyGet, pyGetD, pyTruthy]
  repeat (any_goals split at h)
  all_goals try cases h
  all_goals try unfold recInv
  all_goals refine ⟨?_, ?_, ?_, ?_, ?_⟩ <;> rfl

set_option maxRecDepth 8192 in
/-- Every record mapped from a loaded VMess JSON object carries the mandatory keys with a truthy type. -/
theorem vmessFromData_inv (link : String) (data : PyDict) (d : PyDict)
    (h : vmessFromData link data = some d) : recInv d := by
  unfold vmessFromData at h
  repeat (any_goals split at h)
  all_goals try simp_all [recInv, pyHasKey, pyGet, pyGetD, pyTruthy]
  repeat (any_goals split at h)
  all_goals try cases h
  all_goals try unfold recInv
  all_goals refine ⟨?_, ?_, ?_, ?_, ?_⟩ <;> rfl

set_option maxRecDepth 8192 in
/-- Every record produced by the vmess decoder satisfies the record invariant. -/
theorem parse_vmess_inv (ext : PyExt) (link : String) (d : PyDict)
    (h : parse_vmess ext link = some d) : recInv d := by
  unfold parse_vmess at h
  dsimp only at h
  repeat (any_goals split at h)
  all_goals try cases h
  all_goals exact vmessFromData_inv _ _ _ h

set_option maxRecDepth 8192 in
/-- Every record produced by the trojan decoder satisfies the record invariant. -/
theorem parse_trojan_inv (link : String) (d : PyDict)
    (h : parse_trojan link = some d) : recInv d := by
  unfold parse_trojan at h
  repeat (any_goals split at h)
  all_goals try simp_all [recInv, pyHasKey, pyGet, pyGetD, pyTruthy]
  repeat (any_goals split at h)
  all_goals try cases h
  all_goals try unfold recInv
  all_goals refine ⟨?_, ?_, ?_, ?_, ?_⟩ <;> rfl

set_option maxRecDepth 8192 in
/-- Every record produced by the vless decoder satisfies the record invariant. -/
theorem parse_vless_inv (link : String) (d : PyDict)
    (h : parse_vless link = some d) : recInv d := by
  unfold parse_vless at h
  repeat (any_goals split at h)
  all_goals try simp_all [recInv, pyHasKey, pyGet, pyGetD, pyTruthy]
  repeat (any_goals split at h)
  all_goals try cases h
  all_goals try unfold recInv
  all_goals refine ⟨?_, ?_, ?_, ?_, ?_⟩ <;> rfl

set_option maxRecDepth 8192 in
/-- Every record produced by the hy2 decoder satisfies the record invariant. -/
theorem parse_hy2_inv (ext : PyExt) (link : String) (d : PyDict)
    (h : parse_hy2 ext link = some d) : recInv d := by
  unfold parse_hy2 at h
  repeat (any_goals split at h)
  all_goals try simp_all [recInv, pyHasKey, pyGet, pyGetD, pyTruthy]
  repeat (any_goals split at h)
  all_goals try cases h
  all_goals try unfold recInv
  all_goals refine ⟨?_, ?_, ?_, ?_, ?_⟩ <;> rfl

/-- One optional TUIC query transfer preserves the record invariant. -/
theorem tuicStep_inv (q : List (String × String)) (r : Option PyDict) (k : String)
    (f : String → Option (String × PyVal))
    (hr : ∀ d0, r = some d0 → recInv d0) :
    ∀ d, tuicStep q r k f = some d → recInv d := by
  intro d h
  unfold tuicStep at h
  repeat (any_goals split at h)
  all_goals try cases h
  · exact recInv_append _ _ (hr _ rfl)
  · exact hr _ rfl

set_option maxRecDepth 8192 in
/-- Every record produced by the tuic decoder satisfies the record invariant. -/
theorem parse_tuic_inv (link : String) (d : PyDict)
    (h : parse_tuic link = some d) : recInv d := by
  unfold parse_tuic at h
  dsimp only at h
  repeat (any_goals split at h)
  all_goals try cases h
  all_goals try (refine ⟨?_, ?_, ?_, ?_, ?_⟩ <;> rfl)
  all_goals (
    refine tuicStep_inv _ _ _ _ ?_ _ h
    intro d1 h1
    refine tuicStep_inv _ _ _ _ ?_ _ h1
    intro d2 h2
    refine tuicStep_inv _ _ _ _ ?_ _ h2
    intro d3 h3
    refine tuicStep_inv _ _ _ _ ?_ _ h3
    intro d4 h4
    refine tuicStep_inv _ _ _ _ ?_ _ h4
    intro d5 h5
    refine tuicStep_inv _ _ _ _ ?_ _ h5
    intro d6 h6
    refine tuicStep_inv _ _ _ _ ?_ _ h6
    intro d7 h7
    cases h7
    refine ⟨?_, ?_, ?_, ?_, ?_⟩ <;> rfl)

/-- Every record produced from a wellformed bundle entry satisfies the record invariant. -/
theorem processYamlEntry_inv (entry : PyVal) (hwf : pyWF entry = true)
    (d : PyDict) (h : processYamlEntry entry = .ok (some d)) : recInv d := by
  unfold processYamlEntry at h
  split at h
  case h_2 => cases h
  case h_1 p =>
    have hnodup : strKeysNodup (p.map Prod.fst) = true := by
      simp only [pyWF, Bool.and_eq_true] at hwf
      exact hwf.1
    dsimp only at h
    split at h
    case isFalse => cases h
    case isTrue hguard =>
      split at h
      case h_1 => cases h
      case h_2 ps =>
        cases h
        simp only [Bool.and_eq_true] at hguard
        have htype := hguard.1.1
        refine ⟨?_, ?_, ?_, ?_, ?_⟩
        · rw [pyHasKey, pyGet_update _ _ _ hnodup]
          cases ht : pyGet p "type" <;> rfl
        · rw [pyHasKey, pyGet_update _ _ _ hnodup]
          cases ht : pyGet p "server" <;> rfl
        · rw [pyHasKey, pyGet_update _ _ _ hnodup]
          cases ht : pyGet p "port" <;> rfl
        · rw [pyHasKey, pyGet_update _ _ _ hnodup]
          cases ht : pyGet p "ps" <;> rfl
        · rw [pyGetD, pyGet_update _ _ _ hnodup]
          cases ht : pyGet p "type" with
          | none =>
              rw [pyGetD, ht] at htype
              cases htype
          | some tv =>
              rw [pyGetD, ht] at htype
              simpa using htype

/-- Every record of the bundle entry loop satisfies the record invariant. -/
theorem processYamlEntries_inv (entries : List PyVal)
    (hwf : pyWFList entries = true) :
    ∀ d ∈ processYamlEntries entries, recInv d := by
  induction entries with
  | nil => simp [processYamlEntries]
  | cons entry rest ih =>
      intro d hd
      simp only [pyWFList, Bool.and_eq_true] at hwf
      rw [processYamlEntries] at hd
      split at hd
      · cases hd
      · exact ih hwf.2 d hd
      · rcases List.mem_cons.mp hd with rfl | hd
        · exact processYamlEntry_inv entry hwf.1 d (by assumption)
        · exact ih hwf.2 d hd

/-- Every record of the bundle path satisfies the record invariant, for wellformed loaded documents. -/
theorem parse_yaml_nodes_inv (loaded : Option PyVal)
    (hwf : ∀ v, loaded = some v → pyWF v = true) :
    ∀ d ∈ parse_yaml_nodes loaded, recInv d := by
  intro d hd
  unfold parse_yaml_nodes at hd
  split at hd
  case h_2 => cases hd
  case h_1 data =>
    have hw := hwf _ rfl
    simp only [pyWF, Bool.and_eq_true] at hw
    split at hd
    case isFalse => cases hd
    case isTrue hk =>
      split at hd
      case h_2 => cases hd
      case h_1 entries heq =>
        have hlist : pyWF (.list entries) = true := by
          rw [pyHasKey] at hk
          cases hg : pyGet data "proxies" with
          | none => rw [hg] at hk; cases hk
          | some v =>
              have := pyWFKVs_values data hw.2 "proxies" v hg
              rw [pyGetD, hg] at heq
              simp only [Option.getD_some] at heq
              rw [heq] at this
              exact this
        exact processYamlEntries_inv entries (by simpa [pyWF] using hlist) d hd

/-- Every record produced by the scheme dispatch satisfies the record invariant. -/
theorem dispatchLine_inv (ext : PyExt) (line : List Char) (d : PyDict)
    (h : dispatchLine ext line = some d) : recInv d := by
  unfold dispatchLine at h
  split at h
  · exact parse_ss_inv _ _ h
  · split at h
    · exact parse_vmess_inv _ _ _ h
    · split at h
      · exact parse_trojan_inv _ _ h
      · split at h
        · exact parse_vless_inv _ _ h
        · split at h
          · exact parse_hy2_inv _ _ _ h
          · split at h
            · exact parse_tuic_inv _ _ h
            · cases h

/-- Every record produced from one line satisfies the record invariant, given it holds for recursive re-entries. -/
theorem processLineStep_inv (rec : String → String → List PyDict) (ext : PyExt)
    (src : String) (line : List Char)
    (hrec : ∀ c s d, d ∈ rec c s → recInv d) :
    ∀ d ∈ processLineStep rec ext src line, recInv d := by
  intro d hd
  unfold processLineStep at hd
  dsimp only at hd
  split at hd
  · cases hd
  · split at hd
    · split at hd
      · exact hrec _ _ _ hd
      · split at hd
        · rcases List.mem_singleton.mp hd with rfl
          exact dispatchLine_inv _ _ _ (by assumption)
        · cases hd
    · split at hd
      · rcases List.mem_singleton.mp hd with rfl
        exact dispatchLine_inv _ _ _ (by assumption)
      · cases hd

/-- Every record of the line loop satisfies the record invariant, given it holds for recursive re-entries. -/
theorem lineLoop_inv (rec : String → String → List PyDict) (ext : PyExt)
    (src : String) (hrec : ∀ c s d, d ∈ rec c s → recInv d) :
    ∀ (ls : List (List Char)), ∀ d ∈ lineLoop rec ext src ls, recInv d := by
  intro ls
  induction ls with
  | nil => simp [lineLoop]
  | cons l rest ih =>
      intro d hd
      rw [lineLoop] at hd
      rcases List.mem_append.mp hd with hd | hd
      · exact processLineStep_inv rec ext src l hrec d hd
      · exact ih d hd

/-- Every record assembled by the decode stage satisfies the record invariant, for loaders returning wellformed documents. -/
theorem parse_raw_content_data_inv (ext : PyExt)
    (hext : ∀ s v, ext.safeLoad s = some v → pyWF v = true) :
    ∀ (fuel : Nat) (content src : String),
      ∀ d ∈ parse_raw_content_data ext fuel content src, recInv d := by
  intro fuel
  induction fuel with
  | zero =>
      intro content src d hd
      cases hd
  | succ fuel ih =>
      intro content src d hd
      rw [parse_raw_content_data] at hd
      split at hd
      case isTrue =>
        split at hd
        · exact parse_yaml_nodes_inv _ (fun v hv => hext _ _ hv) d hd
        · exact lineLoop_inv _ ext src (fun c s d2 hd2 => ih c s d2 hd2) _ d hd
      case isFalse =>
        simp only [List.isEmpty_nil, Bool.not_true, if_false] at hd
        exact lineLoop_inv _ ext src (fun c s d2 hd2 => ih c s d2 hd2) _ d hd

/-- Along every reachable scheduler state, permits are conserved and records are conserved. -/
theorem gate_invariant (M N : Nat) (s : GateState) (h : GateReach M N s) :
    s.running + s.avail = N ∧ s.waiting + s.running + s.done = M := by
  induction h with
  | refl => simp [gateInit]
  | tail _ step ih =>
      cases step with
      | acquire w r a d =>
          simp only [GateState.running, GateState.avail, GateState.waiting,
            GateState.done] at ih ⊢
          omega
      | finish o w r a d =>
          simp only [GateState.running, GateState.avail, GateState.waiting,
            GateState.done] at ih ⊢
          omega

/-- With at least one permit, all waiting records can be driven to completion. -/
theorem gate_progress (w d a : Nat) :
    Relation.ReflTransGen GateStep ⟨w, 0, a + 1, d⟩ ⟨0, 0, a + 1, d + w⟩ := by
  induction w generalizing d with
  | zero => exact .refl
  | succ w ih =>
      have s1 : GateStep ⟨w + 1, 0, a + 1, d⟩ ⟨w, 1, a, d⟩ :=
        GateStep.acquire w 0 a d
      have s2 : GateStep ⟨w, 1, a, d⟩ ⟨w, 0, a + 1, d + 1⟩ :=
        GateStep.finish .ok w 0 a d
      have rest := ih (d + 1)
      have : d + 1 + w = d + (w + 1) := by omega
      rw [this] at rest
      exact .trans (.tail (.single s1) s2) rest

/-! ### Claim theorems -/

/-- C1: decoding the blob `ss://YWVzLTI1Ni1nY206cGFzcw==@1.2.3.4:8388#Test`.
The decode stage assembles exactly one dictionary with kind `ss`, host
`1.2.3.4`, port 8388, cipher `aes-256-gcm`, password `pass` and display
name `Test` — precisely the field values the claim states — but the
`Proxy(proxy_str=.., ps=.., ptype=.., server=.., port=..)` constructor call
is incompatible with `Proxy.__init__` of src/models/proxy_model.py (unknown
keywords `proxy_str`, `ps`, `ptype`; required `name` and `proxy_type` not
supplied), so the call raises `TypeError`, the handler at parser.py line
485 skips the record, and `parse_raw_content` returns zero records instead
of the one claimed. -/
theorem c1_ss_blob_decode (ext : PyExt) :
    parse_raw_content_data ext 1 ssBlob "src" = [ssRecord] ∧
    pyGet ssRecord "type" = some (.str "ss") ∧
    pyGet ssRecord "server" = some (.str "1.2.3.4") ∧
    pyGet ssRecord "port" = some (.int 8388) ∧
    pyGet ssRecord "cipher" = some (.str "aes-256-gcm") ∧
    pyGet ssRecord "password" = some (.str "pass") ∧
    pyGet ssRecord "ps" = some (.str "Test") ∧
    pyCallOk proxyInitParams proxyInitRequired parserCallKwargs = false ∧
    parse_raw_content ext 1 ssBlob "src" = [] := by
  refine ⟨rfl, rfl, rfl, rfl, rfl, rfl, rfl, rfl, rfl⟩

/-- C2, counterexample: two records that agree on protocol kind, host, port and all credential fields and differ only in display name (`A` versus `B`) receive different identity keys, and the Deduplicator keeps both — the display name does contribute to the key (its first space-separated token enters `generate_key` as `normalized_name`). -/
theorem c2_display_name_changes_key_counterexample :
    generate_key cpA ≠ generate_key cpB ∧
    deduplicate_proxies [cpA, cpB] = [cpA, cpB] := by
  refine ⟨by decide, by decide⟩

/-- C2, amended: two records that agree on protocol kind, host, port, all credential and transport fields, and on the first space-separated token of the display name receive equal identity keys, and the Deduplicator collapses them to the first; the remainder of the display name after the first token contributes nothing. -/
theorem c2_key_ignores_name_after_first_token (p q : Proxy)
    (h1 : p.proxy_type = q.proxy_type) (h2 : p.server = q.server)
    (h3 : p.port = q.port) (h4 : p.uuid = q.uuid) (h5 : p.password = q.password)
    (h6 : p.cipher = q.cipher) (h7 : p.network = q.network) (h8 : p.host = q.host)
    (h9 : p.path = q.path) (h10 : normalizedName p.name = normalizedName q.name) :
    generate_key p = generate_key q ∧ deduplicate_proxies [p, q] = [p] := by
  have hk : generate_key p = generate_key q := by
    unfold generate_key keyParts
    rw [h1, h2, h3, h4, h5, h6, h7, h8, h9, h10]
  refine ⟨hk, ?_⟩
  simp [deduplicate_proxies, dedupAux, hk]

/-- C2, witness: records named `Test A` and `Test B` (all else equal) collapse to one. -/
theorem c2_key_ignores_name_after_first_token_witness :
    generate_key cpTestA = generate_key cpTestB ∧
    deduplicate_proxies [cpTestA, cpTestB] = [cpTestA] :=
  c2_key_ignores_name_after_first_token cpTestA cpTestB rfl rfl rfl rfl rfl rfl rfl rfl rfl (by decide)

-- C3

/-- C3: the shipped Prober cannot exhibit the claimed contract.  First conjunct: with the shipped attribute environments (`shippedProxyAttr` from src/models/proxy_model.py, `shippedConfigAttr` from src/config.py), `validate_proxy` raises `AttributeError` for every record and every probe outcome — the `proxy.type` read of validator.py line 130 names an attribute the shipped `Proxy` class does not have (it defines `proxy_type`; the `ps` attribute read at line 133 is missing likewise, conjuncts two and three) — so no record is ever probed, no measured latency is ever set, and nothing is ever returned.  Remaining conjuncts: even on a record class exposing every attribute the validator reads, `config.ENABLE_HTTP_CHECK` (line 151) is absent from src/config.py (conjunct four), so a complete record whose transport check succeeds (latency 100) gets `proxy.delay` assigned at line 148 and then raises at line 151: the record carries a latency value although no validation sequence completed, and it is still not returned. -/
theorem c3_validate_proxy_raises :
    (∀ (e hk : Bool) (tcp : Option ℚ) (p : Proxy),
      (validate_proxy shippedProxyAttr shippedConfigAttr e tcp hk p).2 =
        Except.error ()) ∧
    shippedProxyAttr "type" = false ∧
    shippedProxyAttr "ps" = false ∧
    shippedConfigAttr "ENABLE_HTTP_CHECK" = false ∧
    (validate_proxy (fun _ => true) shippedConfigAttr true (some 100) true
        cpComplete).1.delay = some 100 ∧
    (validate_proxy (fun _ => true) shippedConfigAttr true (some 100) true
        cpComplete).2 = Except.error () := by
  refine ⟨fun e hk tcp p => rfl, rfl, rfl, rfl, by decide, rfl⟩

-- C4

/-- C4, counterexample: a VMess JSON payload containing only a port (no address, no id) still decodes to a record, with the server and uuid entries null — missing address or id is not a decode failure. -/
theorem c4_missing_address_id_still_decodes_counterexample :
    vmessFromData "vmess://x" [("port", .str "443")] =
      some [("ps", .str "VMess-None:443"), ("type", .str "vmess"), ("server", .none),
            ("port", .int 443), ("uuid", .none), ("alterId", .int 0),
            ("cipher", .str "auto"), ("network", .str "tcp"), ("tls", .bool false),
            ("proxy_str", .str "vmess://x")] := rfl

/-- C4, amended: a VMess JSON payload without a port field is a decode failure (the `int(data.get(..))` call raises and the handler returns None); missing address or id merely leaves the corresponding entry null. -/
theorem c4_missing_port_is_decode_failure (link : String) (data : PyDict)
    (hp : pyGet data "port" = Option.none) :
    vmessFromData link data = Option.none := by
  unfold vmessFromData pyGetD
  rw [hp]
  rfl

/-- C4, witness: a payload with address and id but no port fails to decode. -/
theorem c4_missing_port_is_decode_failure_witness :
    vmessFromData "vmess://y" [("add", .str "h"), ("id", .str "u")] = Option.none :=
  c4_missing_port_is_decode_failure "vmess://y" [("add", .str "h"), ("id", .str "u")] rfl

/-- C5, counterexample: in the bundle path a non-mapping entry makes the entry loop raise, and because the try block spans the whole loop (parser.py lines 303-412) the remaining entries are lost: a bundle holding a bad entry followed by a good one yields nothing, while the good entry alone yields one record. -/
theorem c5_yaml_entry_aborts_rest_counterexample :
    parse_yaml_nodes (some (.dict [("proxies", .list [.int 5, goodSSEntry])])) = [] ∧
    (parse_yaml_nodes (some (.dict [("proxies", .list [goodSSEntry])]))).length = 1 := by
  refine ⟨rfl, rfl⟩

/-- C5, amended: the decoder returns a list for every input and never propagates an exception; on the line-oriented path the result is the concatenation of the per-line results, so a failing line contributes nothing and every other line is still processed; on the bundle path an entry that fails the completeness check is skipped with the rest processed, but an entry that raises aborts the remaining entries of that bundle. -/
theorem c5_failure_containment :
    (∀ (ext : PyExt) (fuel : Nat) (content src : String),
      containsMarker content = false →
      parse_raw_content_data ext (fuel + 1) content src =
        (splitAllOn '\n' (stripChars content.data)).flatMap
          (processLineStep (fun c s => parse_raw_content_data ext fuel c s) ext src)) ∧
    (∀ (rec : String → String → List PyDict) (ext : PyExt) (src : String)
      (ls1 : List (List Char)) (m : List Char) (ls2 : List (List Char)),
      processLineStep rec ext src m = [] →
      lineLoop rec ext src (ls1 ++ m :: ls2) =
        lineLoop rec ext src ls1 ++ lineLoop rec ext src ls2) ∧
    (∀ (entry : PyVal) (rest : List PyVal),
      processYamlEntry entry = .ok Option.none →
      processYamlEntries (entry :: rest) = processYamlEntries rest) := by
  refine ⟨?_, ?_, ?_⟩
  · intro ext fuel content src hm
    rw [parse_raw_content_data]
    rw [hm]
    simp [lineLoop_eq_flatMap]
  · intro rec ext src ls1 m ls2 hme
    rw [lineLoop_eq_flatMap, lineLoop_eq_flatMap, lineLoop_eq_flatMap]
    simp [hme]
  · intro entry rest he
    have h2 : processYamlEntries (entry :: rest) =
        (match processYamlEntry entry with
         | .error _ => []
         | .ok Option.none => processYamlEntries rest
         | .ok (some r) => r :: processYamlEntries rest) := rfl
    rw [h2, he]

/-- C5, witness: an incomplete (empty-mapping) entry is skipped with the following entry still processed. -/
theorem c5_failure_containment_witness :
    processYamlEntries [PyVal.dict [], goodSSEntry] =
      processYamlEntries [goodSSEntry] :=
  c5_failure_containment.2.2 (PyVal.dict []) [goodSSEntry] rfl

/-- C6: the Deduplicator returns the subsequence of first occurrences per identity key — a sublist of its input (order preserved) whose keys are pairwise distinct and cover every input key, containing every element whose key did not occur earlier, and containing only elements whose key did not occur earlier; applying it to its own output returns that output unchanged (idempotence). -/
theorem c6_dedup_first_occurrences_idempotent (l : List Proxy) :
    (deduplicate_proxies l).Sublist l ∧
    ((deduplicate_proxies l).map generate_key).Nodup ∧
    (∀ p ∈ l, generate_key p ∈ (deduplicate_proxies l).map generate_key) ∧
    (∀ (l1 : List Proxy) (p : Proxy) (l2 : List Proxy), l = l1 ++ p :: l2 →
      generate_key p ∉ l1.map generate_key → p ∈ deduplicate_proxies l) ∧
    (∀ p ∈ deduplicate_proxies l, ∃ l1 l2, l = l1 ++ p :: l2 ∧
      generate_key p ∉ l1.map generate_key) ∧
    deduplicate_proxies (deduplicate_proxies l) = deduplicate_proxies l := by
  unfold deduplicate_proxies
  refine ⟨dedupAux_sublist [] l, (dedupAux_keys_nodup [] l).1, ?_, ?_,
    dedupAux_mem_first [] l, ?_⟩
  · intro p hp
    rcases dedupAux_covers [] l p hp with h | h
    · simp at h
    · exact h
  · intro l1 p l2 hl hk
    subst hl
    exact dedupAux_keeps_first [] l1 p l2 hk (by simp)
  · exact dedupAux_eq_self [] _ (by intro p hp; simp) (dedupAux_keys_nodup [] l).1

/-- C6, witness: a singleton list is kept as is. -/
theorem c6_dedup_first_occurrences_idempotent_witness : cpComplete ∈ deduplicate_proxies [cpComplete] :=
  (c6_dedup_first_occurrences_idempotent [cpComplete]).2.2.2.1 [] cpComplete [] rfl (by simp)

-- C7

/-- C7: the Ranking Assembler on latencies 50, 10, 30 outputs order 10, 30, 50, and with a cap of 2 outputs 10, 30; in general every output record has a latency, the output is sorted ascending by latency, it is a permutation of the latency-bearing input records, ties keep their relative input order (stability, stated as filter-by-latency invariance), and a positive cap takes the leading slice of that size. -/
theorem c7_ranking_sort_filter_cap :
    (rank_proxies Option.none [cpDelay 50, cpDelay 10, cpDelay 30] =
      [cpDelay 10, cpDelay 30, cpDelay 50]) ∧
    (rank_proxies (some 2) [cpDelay 50, cpDelay 10, cpDelay 30] =
      [cpDelay 10, cpDelay 30]) ∧
    ∀ (l : List Proxy) (n : Int),
      (∀ p ∈ rank_proxies Option.none l, p.delay.isSome) ∧
      (rank_proxies Option.none l).Sorted delayLe ∧
      (rank_proxies Option.none l).Perm (l.filter (fun p => p.delay.isSome)) ∧
      (∀ d : ℚ, (rank_proxies Option.none l).filter (fun p => decide (p.delay.getD 0 = d)) =
        (l.filter (fun p => p.delay.isSome)).filter (fun p => decide (p.delay.getD 0 = d))) ∧
      (0 < n → rank_proxies (some n) l = (rank_proxies Option.none l).take n.toNat) ∧
      (rank_proxies (some n) l).Sorted delayLe := by
  refine ⟨by decide, by decide, ?_⟩
  intro l n
  have hsorted : (rank_proxies Option.none l).Sorted delayLe :=
    List.sorted_insertionSort delayLe _
  refine ⟨?_, hsorted, ?_, ?_, ?_, ?_⟩
  · intro p hp
    have hperm := List.perm_insertionSort delayLe (l.filter (fun p => p.delay.isSome))
    have hp2 : p ∈ l.filter (fun p => p.delay.isSome) := hperm.mem_iff.mp hp
    exact (List.mem_filter.mp hp2).2
  · exact List.perm_insertionSort delayLe _
  · intro d
    exact insertionSort_filter_delay d _
  · intro hn
    simp only [rank_proxies, if_pos hn]
  · simp only [rank_proxies]
    split
    · exact List.Pairwise.sublist (List.take_sublist _ _)
        (List.sorted_insertionSort delayLe _)
    · exact List.sorted_insertionSort delayLe _

/-- C7, witness: with a cap of 2 the output is the leading slice of the uncapped ranking. -/
theorem c7_ranking_sort_filter_cap_witness :
    rank_proxies (some 2) [cpDelay 50, cpDelay 10, cpDelay 30] =
      (rank_proxies Option.none [cpDelay 50, cpDelay 10, cpDelay 30]).take (Int.toNat 2) :=
  ((c7_ranking_sort_filter_cap.2.2 [cpDelay 50, cpDelay 10, cpDelay 30] 2).2.2.2.2.1 (by decide))

/-- C8, counterexample: the decoder propagates the record of `ss://...@1.2.3.4:99999#X` with port 99999, although 99999 is not in the range 1-65535 — no port range check is performed at decode time. -/
theorem c8_port_unchecked_counterexample :
    parse_raw_content_data extNone 1 ssBlob99999 "src" =
      [[("ps", .str "X"), ("type", .str "ss"), ("server", .str "1.2.3.4"),
        ("port", .int 99999), ("cipher", .str "aes-256-gcm"),
        ("password", .str "pass"), ("proxy_str", .str ssBlob99999)]] ∧
    ¬((1 : Int) ≤ 99999 ∧ (99999 : Int) ≤ 65535) := by
  refine ⟨rfl, by decide⟩

/-- C8, amended: every record assembled by the decode stage (any fuel, any content, loaders producing wellformed documents) carries `type`, `server`, `port` and `ps` entries and its protocol kind is truthy; but the port value is whatever the descriptor supplied — it is not checked against 1-65535 (see the counterexample), and in the hy2 JSON variant the server, port or password entries may be null. -/
theorem c8_decoded_record_fields (ext : PyExt)
    (hext : ∀ s v, ext.safeLoad s = some v → pyWF v = true)
    (fuel : Nat) (content src : String) :
    ∀ d ∈ parse_raw_content_data ext fuel content src,
      pyHasKey d "type" = true ∧ pyHasKey d "server" = true ∧
      pyHasKey d "port" = true ∧ pyHasKey d "ps" = true ∧
      pyTruthy (pyGetD d "type" .none) = true :=
  fun d hd => parse_raw_content_data_inv ext hext fuel content src d hd

/-- C8, witness: the record decoded from the specification example blob carries the mandatory fields. -/
theorem c8_decoded_record_fields_witness :
    pyHasKey ssRecord "type" = true ∧ pyHasKey ssRecord "server" = true ∧
    pyHasKey ssRecord "port" = true ∧ pyHasKey ssRecord "ps" = true ∧
    pyTruthy (pyGetD ssRecord "type" .none) = true :=
  c8_decoded_record_fields extNone (fun _ _ h => by cases h) 1 ssBlob "src" ssRecord
    (by rw [show parse_raw_content_data extNone 1 ssBlob "src" = [ssRecord] from rfl]
        exact List.mem_singleton.mpr rfl)

/-- C9: along every schedule of the admission-gate model of validate_proxies_concurrently with M records and ceiling N, at most N checks are in flight; permits are conserved (the gate is released on every exit path, so it never leaks); from any stuck state with a positive ceiling all M records are done; and a schedule completing all M records exists. -/
theorem c9_gate_bounded_and_completes (M N : Nat) (s : GateState) (h : GateReach M N s) :
    s.running ≤ N ∧
    s.running + s.avail = N ∧
    s.waiting + s.running + s.done = M ∧
    ((∀ t, ¬ GateStep s t) → 0 < N → s.done = M ∧ s.avail = N) ∧
    (0 < N → GateReach M N ⟨0, 0, N, M⟩) := by
  obtain ⟨hinv1, hinv2⟩ := gate_invariant M N s h
  refine ⟨by omega, hinv1, hinv2, ?_, ?_⟩
  · intro hstuck hN
    obtain ⟨w, r, a, d⟩ := s
    simp only [GateState.running, GateState.avail, GateState.waiting,
      GateState.done] at hinv1 hinv2 ⊢
    have hr : r = 0 := by
      by_contra hr0
      obtain ⟨r2, rfl⟩ : ∃ r2, r = r2 + 1 := ⟨r - 1, by omega⟩
      exact hstuck _ (GateStep.finish .ok w r2 a d)
    subst hr
    have hw : w = 0 := by
      by_contra hw0
      obtain ⟨w2, rfl⟩ : ∃ w2, w = w2 + 1 := ⟨w - 1, by omega⟩
      obtain ⟨a2, rfl⟩ : ∃ a2, a = a2 + 1 := ⟨a - 1, by omega⟩
      exact hstuck _ (GateStep.acquire w2 0 a2 d)
    subst hw
    omega
  · intro hN
    obtain ⟨a, rfl⟩ : ∃ a, N = a + 1 := ⟨N - 1, by omega⟩
    have := gate_progress M 0 a
    simpa [gateInit, GateReach] using this

/-- C9, witness: with 3 records and ceiling 2 the completed state is reachable. -/
theorem c9_gate_bounded_and_completes_witness :
    GateReach 3 2 ⟨0, 0, 2, 3⟩ :=
  (c9_gate_bounded_and_completes 3 2 (gateInit 3 2) .refl).2.2.2.2 (by decide)

/-- C10: the identity key is computed case-insensitively — generate_key lowercases the joined key — so two records whose identity-relevant fields differ only in letter case receive equal keys and the Deduplicator silently drops the later record. -/
theorem c10_key_case_insensitive_collapse (p q : Proxy)
    (h1 : pyStrLower p.proxy_type = pyStrLower q.proxy_type)
    (h2 : pyStrLower p.server = pyStrLower q.server)
    (h3 : p.port = q.port)
    (h4 : pyStrLower (p.uuid.getD "") = pyStrLower (q.uuid.getD ""))
    (h5 : pyStrLower (p.password.getD "") = pyStrLower (q.password.getD ""))
    (h6 : pyStrLower (p.cipher.getD "") = pyStrLower (q.cipher.getD ""))
    (h7 : pyStrLower (p.network.getD "") = pyStrLower (q.network.getD ""))
    (h8 : pyStrLower (p.host.getD "") = pyStrLower (q.host.getD ""))
    (h9 : pyStrLower (p.path.getD "") = pyStrLower (q.path.getD ""))
    (h10 : pyStrLower (normalizedName p.name) = pyStrLower (normalizedName q.name)) :
    generate_key p = generate_key q ∧ deduplicate_proxies [p, q] = [p] := by
  have hk : generate_key p = generate_key q := by
    unfold generate_key
    rw [pyStrLower_join_colon, pyStrLower_join_colon]
    unfold keyParts
    simp only [List.map]
    rw [h1, h2, h3, h4, h5, h6, h7, h8, h9, h10]
  exact ⟨hk, by simp [deduplicate_proxies, dedupAux, hk]⟩

/-- C10, witness: passwords `Secret` and `secret` (and hosts `Host.Example` and `host.example`) collapse to one record. -/
theorem c10_key_case_insensitive_collapse_witness :
    generate_key cpSecret = generate_key cpSecretLower ∧
    deduplicate_proxies [cpSecret, cpSecretLower] = [cpSecret] :=
  c10_key_case_insensitive_collapse cpSecret cpSecretLower rfl (by decide) rfl rfl (by decide) rfl rfl rfl rfl rfl
